import Mathlib

/-!
Verification of the graph-ingestion logic of the knowledgeGraph repository.

The repository contains two batch-ETL scripts that upsert denormalized
e-commerce JSON records into a labeled property graph:

* `neo4j_utils.py` — the consolidated ingestor (`Neo4jDataIngestor.ingest_data`
  with per-family methods `_ingest_product`, `_ingest_variant`, `_ingest_order`,
  `_ingest_inventory`, `_ingest_customer`), each family method issuing one
  Cypher query of MERGE / MATCH / UNWIND clauses;
* `app.py` — an earlier product-only ingestor (`ingest_product_transaction`)
  issuing one Cypher statement per relation family.

The embedding below models the graph store as lists of nodes and edges and the
Cypher clauses as explicit merge operations.  Cypher row semantics are modelled
faithfully: a MERGE on a node or relationship pattern is match-or-create keyed
by the identity property (ON CREATE SET applies only at creation; ON MATCH SET
overwrites), an UNWIND of an empty list yields zero rows so every later clause
of the same query runs on zero rows and has no effect, and a MATCH that finds
no node likewise drops all rows without error.  Repeated execution of the same
MERGE across the row cartesian product is idempotent, so each distinct merge is
modelled once, in clause order.
-/

set_option linter.unusedVariables false

namespace KG

/-- Node labels used across the two ingestion scripts. -/
inductive Label where
  | Product | Category | Collection | Partner | Brand | Variant
  | Order | Customer | SalesChannel | Shipment | Inventory
  | Address | PaymentMethod | Media
  deriving DecidableEq

/-- Relationship types used across the two ingestion scripts. -/
inductive Rel where
  | BELONGS_TO | PART_OF | SUPPLIED_BY | HAS | HAS_VARIANT | HAS_MEDIA | HAS_BRAND
  | PLACED | PLACED_ON_CHANNEL | HAS_SHIPMENT | CONTAINS | RECORDS_STOCK_FOR
  | HAS_ADDRESS | HAS_PAYMENT_METHOD | WISHES_FOR
  deriving DecidableEq

/-- Property values.  The scripts never compute with values, they only copy
them from the decoded JSON records into node / relationship properties, so the
value domain is embedded as an opaque inductive: strings (including the
`json.dumps` serializations the code stores with `toString`), integers,
decimal literals (embedded exactly, as hundredths), booleans, string lists
(the `tags` array) and null. -/
inductive Val where
  | null
  | str (s : String)
  | int (n : Int)
  | dec (hundredths : Int)
  | bool (b : Bool)
  | strList (ss : List String)
  deriving DecidableEq

/-- A graph node: a label, the value of its identity-key property, and the
remaining properties as an association list. -/
structure Node where
  label : Label
  key : String
  props : List (String × Val)
  deriving DecidableEq

/-- Identity of a relationship: source (label, key), relationship type,
target (label, key).  Cypher's `MERGE (a)-[:R]->(b)` with bound endpoints is
match-or-create on exactly this quintuple. -/
structure EdgeKey where
  sl : Label
  sk : String
  r : Rel
  tl : Label
  tk : String
  deriving DecidableEq

/-- A directed labeled edge with its own property set. -/
structure Edge where
  ekey : EdgeKey
  props : List (String × Val)
  deriving DecidableEq

/-- The graph database state. -/
structure Graph where
  nodes : List Node
  edges : List Edge
  deriving DecidableEq

/-- The empty database. -/
def emptyGraph : Graph := ⟨[], []⟩

/-- Does a node match a (label, identity key) pair? -/
def nodeKeyP (l : Label) (k : String) (n : Node) : Bool :=
  decide (n.label = l ∧ n.key = k)

/-- Does an edge match an edge identity? -/
def edgeKeyP (q : EdgeKey) (e : Edge) : Bool :=
  decide (e.ekey = q)

/-- First node with the given label and identity key, if any. -/
def Graph.findNode (g : Graph) (l : Label) (k : String) : Option Node :=
  g.nodes.find? (nodeKeyP l k)

/-- Is some node with the given label and identity key present? -/
def Graph.hasNode (g : Graph) (l : Label) (k : String) : Bool :=
  (g.findNode l k).isSome

/-- Number of nodes with the given label and identity key. -/
def Graph.countNodes (g : Graph) (l : Label) (k : String) : Nat :=
  g.nodes.countP (nodeKeyP l k)

/-- First edge with the given identity, if any. -/
def Graph.findEdge (g : Graph) (q : EdgeKey) : Option Edge :=
  g.edges.find? (edgeKeyP q)

/-- Is some edge with the given identity present? -/
def Graph.hasEdge (g : Graph) (q : EdgeKey) : Bool :=
  (g.findEdge q).isSome

/-- Number of edges with the given identity. -/
def Graph.countEdges (g : Graph) (q : EdgeKey) : Nat :=
  g.edges.countP (edgeKeyP q)

/-- Cypher `MERGE (n:L ... key ...) ON CREATE SET ...`: match the node by
(label, identity key) or create it; the ON CREATE properties are set only when
the node is newly created. -/
def Graph.mergeNode (g : Graph) (l : Label) (k : String)
    (onCreate : List (String × Val)) : Graph :=
  if g.hasNode l k then g
  else { g with nodes := g.nodes ++ [⟨l, k, onCreate⟩] }

/-- Cypher `MERGE (a)-[:R]->(b) ON CREATE SET ...` with bound endpoints:
match the edge by identity or create it; properties set only at creation. -/
def Graph.mergeEdge (g : Graph) (q : EdgeKey)
    (onCreate : List (String × Val)) : Graph :=
  if g.hasEdge q then g
  else { g with edges := g.edges ++ [⟨q, onCreate⟩] }

/-- Cypher edge MERGE with identical `ON CREATE SET` and `ON MATCH SET`
clauses: match-or-create, then overwrite the edge properties either way. -/
def Graph.mergeEdgeRefresh (g : Graph) (q : EdgeKey)
    (ps : List (String × Val)) : Graph :=
  if g.hasEdge q then
    { g with edges := g.edges.map (fun e => if edgeKeyP q e then { e with props := ps } else e) }
  else { g with edges := g.edges ++ [⟨q, ps⟩] }

/-- Replace the binding of a property name in an association list, appending a
fresh binding if none exists. -/
def setP : List (String × Val) → String → Val → List (String × Val)
  | [], n, v => [(n, v)]
  | (m, w) :: rest, n, v =>
    if m = n then (n, v) :: rest else (m, w) :: setP rest n v

/-- Cypher unconditional `SET n.field = value` against all nodes matched by
(label, identity key). -/
def Graph.setNodeProp (g : Graph) (l : Label) (k : String)
    (field : String) (v : Val) : Graph :=
  { g with nodes := g.nodes.map (fun n => if nodeKeyP l k n then { n with props := setP n.props field v } else n) }

/-- One graph operation of a merge plan, in the sense of the spec: each Cypher
clause of the ingestion queries is one of these. -/
inductive MergeOp where
  | node (l : Label) (k : String) (onCreate : List (String × Val))
  | edge (q : EdgeKey) (onCreate : List (String × Val))
  | edgeRefresh (q : EdgeKey) (ps : List (String × Val))
  | setProp (l : Label) (k : String) (field : String) (v : Val)
  deriving DecidableEq

/-- Execute one merge operation. -/
def applyOp (g : Graph) : MergeOp → Graph
  | .node l k ps => g.mergeNode l k ps
  | .edge q ps => g.mergeEdge q ps
  | .edgeRefresh q ps => g.mergeEdgeRefresh q ps
  | .setProp l k f v => g.setNodeProp l k f v

/-- Execute a merge plan, in order. -/
def applyPlan (g : Graph) : List MergeOp → Graph
  | [] => g
  | op :: ops => applyPlan (applyOp g op) ops

/-! ## Decoded JSON records

One structure per record shape the scripts read.  Fields accessed with
Python's `record["field"]` are required; the identity key `product_id` is
embedded as an `Option` because claim C3 concerns its absence (a missing key
raises `KeyError` inside the transaction function).  Fields the code passes
through `json.dumps` before storing are embedded as the serialized string. -/

structure CategoryRec where
  category_id : String
  name : String
  slug : String
  deriving DecidableEq

structure CollectionRec where
  collection_id : String
  name : String
  slug : String
  deriving DecidableEq

structure PartnerRec where
  partner_id : String
  name : String
  type : String
  deriving DecidableEq

structure BrandRec where
  id : String
  name : String
  deriving DecidableEq

/-- Product record as read by `neo4j_utils._ingest_product`. -/
structure ProductRec where
  product_id : Option String
  sku : String
  name : String
  short_description : String
  description : String
  list_price : String
  aggregate_stock : String
  physical_attributes : String
  status : String
  deleted : Bool
  created_at : String
  marketing : String
  tags : List String
  media : String
  compliances : String
  handling_instructions : String
  external_identifiers : String
  categories : List CategoryRec
  collections : List CollectionRec
  partners : List PartnerRec
  brand : BrandRec
  deriving DecidableEq

/-- Variant record as read by `neo4j_utils._ingest_variant`. -/
structure VariantRec where
  variant_id : String
  sku : String
  name : String
  status : String
  deleted : Bool
  variation_type : String
  created_at : String
  updated_at : String
  list_price : String
  variations : String
  physical_attributes : String
  media : String
  inventory_summary : String
  sales_channels : String
  external_identifiers : String
  product_id : String
  deriving DecidableEq

structure SalesChannelRec where
  channel_id : String
  name : String
  type : String
  status : String
  deriving DecidableEq

structure ShipItemRec where
  variant_id : String
  quantity : Val
  deriving DecidableEq

structure ShipmentRec where
  shipment_id : String
  status : String
  carrier : String
  tracking_number : String
  shipped_date : String
  estimated_delivery_date : String
  shipping_address : String
  items : List ShipItemRec
  deriving DecidableEq

structure OrderItemRec where
  variant_id : String
  quantity : Val
  line_item_total : Val
  deriving DecidableEq

/-- Order record as read by `neo4j_utils._ingest_order`.  `sales_channel` is
`none` when the record has no sales channel or its `channel_id` is null (the
query guards on `sales_channel.channel_id IS NOT NULL`). -/
structure OrderRec where
  order_id : String
  order_number : String
  status : String
  currency : String
  notes : String
  created_at : String
  updated_at : String
  order_created_date : String
  totals : String
  payments : String
  applied_promotions : String
  external_references : String
  customer_id : String
  sales_channel : Option SalesChannelRec
  order_items : List OrderItemRec
  shipments : List ShipmentRec
  deriving DecidableEq

/-- The nested `quantity` object of an inventory record. -/
structure QuantityRec where
  total : Val
  sellable : Val
  reserved : Val
  deriving DecidableEq

structure InventoryRec where
  inventory_id : String
  variant_id : String
  created_at : String
  updated_at : String
  quantity : QuantityRec
  deriving DecidableEq

/-- Address element of a customer record.  The record does carry a `state`
field, but `_ingest_customer` never reads it: the query's ON CREATE clause is
`a.state = a.state`, a self-assignment (see claim C9). -/
structure AddressRec where
  address_id : String
  label : String
  receiver_name : String
  receiver_phone : String
  street : String
  city : String
  state : String
  zip_code : String
  country : String
  is_default : Bool
  deriving DecidableEq

structure PaymentMethodRec where
  payment_method_id : String
  type : String
  gateway_token : String
  card_last_four : String
  card_brand : String
  card_expiry_month : Val
  card_expiry_year : Val
  is_default : Bool
  deriving DecidableEq

structure WishItemRec where
  variant_id : String
  added_at : String
  price_at_add : String
  deriving DecidableEq

structure CustomerRec where
  customer_id : String
  email : String
  first_name : String
  last_name : String
  phone : String
  customer_segment : String
  marketing_consent : Val
  notes : String
  status : String
  deleted : Bool
  created_at : String
  updated_at : String
  personalization_details : String
  addresses : List AddressRec
  payment_methods : List PaymentMethodRec
  wishlist : List WishItemRec
  deriving DecidableEq

/-! ## Merge plans of `neo4j_utils.py` -/

/-- ON CREATE properties of the Product node (`_ingest_product`). -/
def productNodeProps (p : ProductRec) : List (String × Val) :=
  [("sku", .str p.sku), ("name", .str p.name),
   ("short_description", .str p.short_description),
   ("description", .str p.description),
   ("list_price", .str p.list_price),
   ("aggregate_stock", .str p.aggregate_stock),
   ("physical_attributes", .str p.physical_attributes),
   ("status", .str p.status), ("deleted", .bool p.deleted),
   ("created_at", .str p.created_at), ("marketing", .str p.marketing),
   ("tags", .strList p.tags), ("media", .str p.media),
   ("compliances", .str p.compliances),
   ("handling_instructions", .str p.handling_instructions),
   ("external_identifiers", .str p.external_identifiers)]

/-- A fan-out over a nested array: per element, merge the related node by its
own identity key (with ON CREATE node properties) and merge one edge from the
owning node (with ON CREATE edge properties).  `items` carries
(key, node properties, edge properties) per element. -/
def fanOps (src : Label × String) (r : Rel) (tl : Label)
    (items : List (String × List (String × Val) × List (String × Val))) : List MergeOp :=
  items.flatMap (fun it =>
    [.node tl it.1 it.2.1, .edge ⟨src.1, src.2, r, tl, it.1⟩ it.2.2])

def catItem (c : CategoryRec) : String × List (String × Val) × List (String × Val) :=
  (c.category_id, [("name", .str c.name), ("slug", .str c.slug)], [])

def collItem (c : CollectionRec) : String × List (String × Val) × List (String × Val) :=
  (c.collection_id, [("name", .str c.name), ("slug", .str c.slug)], [])

def partnerItem (pa : PartnerRec) : String × List (String × Val) × List (String × Val) :=
  (pa.partner_id, [("name", .str pa.name), ("type", .str pa.type)], [])

/-- Merge plan of the single Cypher query of `_ingest_product`.  The query
UNWINDs `$categories`, then `$collections`, then `$partners`, then merges the
Brand.  An UNWIND of an empty list yields zero rows, so every clause after it
runs on zero rows: an empty `categories` suppresses the collection, partner
and brand merges; an empty `collections` suppresses the partner and brand
merges; an empty `partners` suppresses the brand merge. -/
def productPlan (p : ProductRec) (pid : String) : List MergeOp :=
  .node .Product pid (productNodeProps p) ::
  fanOps (.Product, pid) .BELONGS_TO .Category (p.categories.map catItem)
  ++ (if p.categories = [] then [] else
      fanOps (.Product, pid) .PART_OF .Collection (p.collections.map collItem)
      ++ (if p.collections = [] then [] else
          fanOps (.Product, pid) .SUPPLIED_BY .Partner (p.partners.map partnerItem)
          ++ (if p.partners = [] then [] else
              [.node .Brand p.brand.id [("name", Val.str p.brand.name)],
               .edge ⟨.Product, pid, .BELONGS_TO, .Brand, p.brand.id⟩ []])))

/-- Errors raised inside a transaction function.  Only the identity-key
`KeyError` is reachable in the embedding (other required fields are total). -/
inductive IngestError where
  | missingKey (field : String)
  deriving DecidableEq

/-- The graph effect of `_ingest_product` once the record's `product_id` is
known to be present. -/
def ingest_product_tx (p : ProductRec) (pid : String) (g : Graph) : Graph :=
  applyPlan g (productPlan p pid)

/-- `Neo4jDataIngestor._ingest_product`: evaluating `product["product_id"]`
raises `KeyError` when the key is absent; otherwise the single Cypher query
runs. -/
def ingest_product (p : ProductRec) (g : Graph) : Except IngestError Graph :=
  match p.product_id with
  | none => .error (.missingKey "product_id")
  | some pid => .ok (ingest_product_tx p pid g)

/-- ON CREATE properties of the Variant node (`_ingest_variant`). -/
def variantNodeProps (v : VariantRec) : List (String × Val) :=
  [("sku", .str v.sku), ("name", .str v.name), ("status", .str v.status),
   ("deleted", .bool v.deleted), ("variation_type", .str v.variation_type),
   ("created_at", .str v.created_at), ("updated_at", .str v.updated_at),
   ("list_price", .str v.list_price), ("variations", .str v.variations),
   ("physical_attributes", .str v.physical_attributes),
   ("media", .str v.media), ("inventory_summary", .str v.inventory_summary),
   ("sales_channels", .str v.sales_channels),
   ("external_identifiers", .str v.external_identifiers)]

/-- `Neo4jDataIngestor._ingest_variant`: MERGE the Variant node, then MATCH
the parent Product.  If the Product node is absent the MATCH yields zero rows
and the query ends silently — no error, and no HAS edge. -/
def ingest_variant (v : VariantRec) (g : Graph) : Graph :=
  let g1 := g.mergeNode .Variant v.variant_id (variantNodeProps v)
  if g1.hasNode .Product v.product_id then
    g1.mergeEdge ⟨.Product, v.product_id, .HAS, .Variant, v.variant_id⟩ []
  else g1

/-- ON CREATE properties of the Order node (`_ingest_order`). -/
def orderNodeProps (o : OrderRec) : List (String × Val) :=
  [("order_number", .str o.order_number), ("status", .str o.status),
   ("currency", .str o.currency), ("notes", .str o.notes),
   ("created_at", .str o.created_at), ("updated_at", .str o.updated_at),
   ("order_created_date", .str o.order_created_date),
   ("totals", .str o.totals), ("payments", .str o.payments),
   ("applied_promotions", .str o.applied_promotions),
   ("external_references", .str o.external_references)]

/-- The FOREACH guard on `sales_channel.channel_id IS NOT NULL`. -/
def salesChannelPlan (o : OrderRec) : List MergeOp :=
  match o.sales_channel with
  | none => []
  | some sc =>
    [.node .SalesChannel sc.channel_id
       [("name", .str sc.name), ("type", .str sc.type), ("status", .str sc.status)],
     .edge ⟨.Order, o.order_id, .PLACED_ON_CHANNEL, .SalesChannel, sc.channel_id⟩ []]

/-- The `UNWIND shipments` fan-out with its nested `UNWIND shipment.items`. -/
def shipmentsPlan (o : OrderRec) : List MergeOp :=
  o.shipments.flatMap (fun s =>
    [.node .Shipment s.shipment_id
       [("status", .str s.status), ("carrier", .str s.carrier),
        ("tracking_number", .str s.tracking_number),
        ("shipped_date", .str s.shipped_date),
        ("estimated_delivery_date", .str s.estimated_delivery_date),
        ("shipping_address", .str s.shipping_address)],
     .edge ⟨.Order, o.order_id, .HAS_SHIPMENT, .Shipment, s.shipment_id⟩ []]
    ++ s.items.flatMap (fun it =>
        [.node .Variant it.variant_id [],
         .edge ⟨.Shipment, s.shipment_id, .CONTAINS, .Variant, it.variant_id⟩
           [("quantity", it.quantity)]]))

def orderFrontPlan (o : OrderRec) : List MergeOp :=
  [.node .Order o.order_id (orderNodeProps o),
   .node .Customer o.customer_id [],
   .edge ⟨.Customer, o.customer_id, .PLACED, .Order, o.order_id⟩ []]
  ++ salesChannelPlan o
  ++ shipmentsPlan o

/-- The final `$order_items` clauses of the `_ingest_order` query.  They run
on the rows left by `UNWIND shipments` / `UNWIND shipment.items`, so they
merge nothing unless some shipment has a nonempty items list. -/
def orderItemsPlan (o : OrderRec) : List MergeOp :=
  if ∀ s ∈ o.shipments, s.items = [] then [] else
    o.order_items.flatMap (fun it =>
      [.node .Variant it.variant_id [],
       .edgeRefresh ⟨.Order, o.order_id, .CONTAINS, .Variant, it.variant_id⟩
         [("quantity", it.quantity), ("line_item_total", it.line_item_total)]])

/-- Merge plan of the single Cypher query of `_ingest_order`: Order node,
bare Customer placeholder plus PLACED edge, optional SalesChannel, the
shipments fan-out with nested shipment items, and finally the `$order_items`
fan-out.  The order-CONTAINS edge sets `quantity` and `line_item_total` both
ON CREATE and ON MATCH (refresh). -/
def orderPlan (o : OrderRec) : List MergeOp :=
  orderFrontPlan o ++ orderItemsPlan o

/-- `Neo4jDataIngestor._ingest_order`. -/
def ingest_order (o : OrderRec) (g : Graph) : Graph :=
  applyPlan g (orderPlan o)

/-- Merge plan of `_ingest_inventory` once the Variant MATCH succeeded. -/
def inventoryPlan (iv : InventoryRec) : List MergeOp :=
  [.node .Inventory iv.inventory_id
     [("created_at", .str iv.created_at), ("updated_at", .str iv.updated_at)],
   .edgeRefresh ⟨.Inventory, iv.inventory_id, .RECORDS_STOCK_FOR, .Variant, iv.variant_id⟩
     [("total", iv.quantity.total), ("sellable", iv.quantity.sellable),
      ("reserved", iv.quantity.reserved)]]

/-- `Neo4jDataIngestor._ingest_inventory`: the query begins with
`MATCH (v:Variant ...)`; if no such Variant exists the MATCH yields zero rows
and the whole query is a silent no-op. -/
def ingest_inventory (iv : InventoryRec) (g : Graph) : Graph :=
  if g.hasNode .Variant iv.variant_id then applyPlan g (inventoryPlan iv) else g

/-- ON CREATE properties of the Customer node (`_ingest_customer`). -/
def customerNodeProps (c : CustomerRec) : List (String × Val) :=
  [("email", .str c.email), ("first_name", .str c.first_name),
   ("last_name", .str c.last_name), ("phone", .str c.phone),
   ("customer_segment", .str c.customer_segment),
   ("marketing_consent", c.marketing_consent), ("notes", .str c.notes),
   ("status", .str c.status), ("deleted", .bool c.deleted),
   ("created_at", .str c.created_at), ("updated_at", .str c.updated_at),
   ("personalization_details", .str c.personalization_details)]

/-- ON CREATE properties of an Address node.  The Cypher clause sets `label`,
`receiver_name`, `receiver_phone`, `street`, `city`, `zip_code` and `country`
from the address element, but its state clause is `a.state = a.state`: it
reads the just-created node's own (absent) `state` property, and `SET` to
null stores nothing, so no `state` property is ever written. -/
def addressNodeProps (a : AddressRec) : List (String × Val) :=
  [("label", .str a.label), ("receiver_name", .str a.receiver_name),
   ("receiver_phone", .str a.receiver_phone), ("street", .str a.street),
   ("city", .str a.city), ("zip_code", .str a.zip_code),
   ("country", .str a.country)]

def addressItem (a : AddressRec) : String × List (String × Val) × List (String × Val) :=
  (a.address_id, addressNodeProps a, [("is_default", .bool a.is_default)])

def paymentItem (m : PaymentMethodRec) : String × List (String × Val) × List (String × Val) :=
  (m.payment_method_id,
   [("type", .str m.type), ("gateway_token", .str m.gateway_token),
    ("card_last_four", .str m.card_last_four), ("card_brand", .str m.card_brand),
    ("card_expiry_month", m.card_expiry_month),
    ("card_expiry_year", m.card_expiry_year)],
   [("is_default", .bool m.is_default)])

def wishItem (w : WishItemRec) : String × List (String × Val) × List (String × Val) :=
  (w.variant_id, [],
   [("added_at", .str w.added_at), ("price_at_add", .str w.price_at_add)])

/-- Merge plan of the single Cypher query of `_ingest_customer`: Customer
node (ON CREATE only), then UNWIND addresses, UNWIND payment methods, UNWIND
wishlist.  As in the product query, an empty earlier UNWIND leaves zero rows
for every later clause. -/
def customerAddressesPlan (c : CustomerRec) : List MergeOp :=
  fanOps (.Customer, c.customer_id) .HAS_ADDRESS .Address (c.addresses.map addressItem)

/-- The payment-method and wishlist clauses, which run on the rows left by
`UNWIND addresses` (and then `UNWIND payment_methods`). -/
def customerTailPlan (c : CustomerRec) : List MergeOp :=
  if c.addresses = [] then [] else
    fanOps (.Customer, c.customer_id) .HAS_PAYMENT_METHOD .PaymentMethod
      (c.payment_methods.map paymentItem)
    ++ (if c.payment_methods = [] then [] else
        fanOps (.Customer, c.customer_id) .WISHES_FOR .Variant
          (c.wishlist.map wishItem))

def customerPlan (c : CustomerRec) : List MergeOp :=
  .node .Customer c.customer_id (customerNodeProps c) ::
  customerAddressesPlan c ++ customerTailPlan c

/-- `Neo4jDataIngestor._ingest_customer`. -/
def ingest_customer (c : CustomerRec) (g : Graph) : Graph :=
  applyPlan g (customerPlan c)

/-! ## The orchestrator `Neo4jDataIngestor.ingest_data` -/

/-- The five record families, in the order the `ingest_data` body processes
them. -/
inductive Family where
  | product | variant | order | inventory | customer
  deriving DecidableEq

/-- Position of a family in the processing order of the `ingest_data` body. -/
def famRank : Family → Nat
  | .product => 0
  | .variant => 1
  | .order => 2
  | .inventory => 3
  | .customer => 4

/-- One `for record in data: session.execute_write(step, record)` loop for a
family whose transaction function cannot raise.  Returns the final graph and
one trace event per executed record write, in execution order. -/
def ingest_loop {α : Type} (f : Family) (step : α → Graph → Graph) :
    Graph → List α → Graph × List Family
  | g, [] => (g, [])
  | g, r :: rs =>
    let res := ingest_loop f step (step r g) rs
    (res.1, f :: res.2)

/-- The product loop: `_ingest_product` can raise `KeyError`, which is not
caught anywhere in `ingest_data`, so it aborts the loop (and the batch). -/
def ingest_loop_products :
    Graph → List ProductRec → Except IngestError Graph × List Family
  | g, [] => (.ok g, [])
  | g, p :: ps =>
    match ingest_product p g with
    | .error e => (.error e, [])
    | .ok g2 =>
      let res := ingest_loop_products g2 ps
      (res.1, Family.product :: res.2)

/-- `Neo4jDataIngestor.ingest_data`.  The parameter order matches the Python
signature `(product_data, variants_data, orders_data, customers_data,
inventories_data)`; the body loops over products, variants, orders, then
`inventories_data`, then `customers_data` — so inventories are processed
fourth and customers fifth.  (The `__main__` caller passes its collections
positionally in the signature's order, so each parameter holds the family its
name says.)  The function returns no report in Python (`None`); the embedding
returns the final graph, or the first uncaught error, together with the trace
of executed record writes. -/
def ingest_data (g : Graph) (product_data : List ProductRec)
    (variants_data : List VariantRec) (orders_data : List OrderRec)
    (customers_data : List CustomerRec) (inventories_data : List InventoryRec) :
    Except IngestError Graph × List Family :=
  match ingest_loop_products g product_data with
  | (.error e, tr) => (.error e, tr)
  | (.ok g1, tr1) =>
    let rv := ingest_loop .variant ingest_variant g1 variants_data
    let ro := ingest_loop .order ingest_order rv.1 orders_data
    let ri := ingest_loop .inventory ingest_inventory ro.1 inventories_data
    let rc := ingest_loop .customer ingest_customer ri.1 customers_data
    (.ok rc.1, tr1 ++ rv.2 ++ ro.2 ++ ri.2 ++ rc.2)

/-! ## The `app.py` product ingestor

`app.py` reads a different product JSON shape (it additionally needs
`variants` and `media` as structured arrays) and issues nine separate Cypher
statements inside one transaction function, each after the first re-MATCHing
the Product node — which statement 1 has merged, so the MATCH always
succeeds and an empty nested list only skips its own statement. -/

structure MediaRec where
  url : String
  type : String
  alt_text : String
  is_primary : Bool
  deriving DecidableEq

/-- Element of `product["variants"]` as read by `app.py` (statement 5 reads
`variant.variations.color` and `variant.variations.material`). -/
structure AppVariantRec where
  variant_id : String
  name : String
  sku : String
  color : String
  material : String
  deriving DecidableEq

/-- Product record as read by `app.py`'s `ingest_product_transaction`. -/
structure AppProductRec where
  product_id : String
  sku : String
  name : String
  short_description : String
  description : String
  list_price : String
  aggregate_stock : String
  physical_attributes : String
  status : String
  deleted : Bool
  created_at : String
  categories : List CategoryRec
  collections : List CollectionRec
  partners : List PartnerRec
  variants : List AppVariantRec
  media : List MediaRec
  brand : BrandRec
  marketing : String
  tags : List String
  deriving DecidableEq

/-- ON CREATE properties of the Product node in `app.py` (statement 1; note
it sets neither marketing nor tags — statements 8 and 9 SET those
unconditionally afterwards). -/
def appProductNodeProps (p : AppProductRec) : List (String × Val) :=
  [("sku", .str p.sku), ("name", .str p.name),
   ("short_description", .str p.short_description),
   ("description", .str p.description),
   ("list_price", .str p.list_price),
   ("aggregate_stock", .str p.aggregate_stock),
   ("physical_attributes", .str p.physical_attributes),
   ("status", .str p.status), ("deleted", .bool p.deleted),
   ("created_at", .str p.created_at)]

def appVariantItem (v : AppVariantRec) : String × List (String × Val) × List (String × Val) :=
  (v.variant_id,
   [("name", .str v.name), ("sku", .str v.sku),
    ("color", .str v.color), ("material", .str v.material)], [])

/-- Media nodes are keyed by `url`. -/
def mediaItem (m : MediaRec) : String × List (String × Val) × List (String × Val) :=
  (m.url,
   [("type", .str m.type), ("alt_text", .str m.alt_text),
    ("is_primary", .bool m.is_primary)], [])

/-- Merge plan of `app.py`'s nine statements, in order: Product node;
categories (BELONGS_TO); collections (PART_OF); partners (SUPPLIED_BY);
variants (HAS_VARIANT); media (HAS_MEDIA); Brand (HAS_BRAND); SET marketing;
SET tags. -/
def appProductPlan (p : AppProductRec) : List MergeOp :=
  .node .Product p.product_id (appProductNodeProps p) ::
  fanOps (.Product, p.product_id) .BELONGS_TO .Category (p.categories.map catItem)
  ++ fanOps (.Product, p.product_id) .PART_OF .Collection (p.collections.map collItem)
  ++ fanOps (.Product, p.product_id) .SUPPLIED_BY .Partner (p.partners.map partnerItem)
  ++ fanOps (.Product, p.product_id) .HAS_VARIANT .Variant (p.variants.map appVariantItem)
  ++ fanOps (.Product, p.product_id) .HAS_MEDIA .Media (p.media.map mediaItem)
  ++ [.node .Brand p.brand.id [("name", Val.str p.brand.name)],
      .edge ⟨.Product, p.product_id, .HAS_BRAND, .Brand, p.brand.id⟩ [],
      .setProp .Product p.product_id "marketing" (.str p.marketing),
      .setProp .Product p.product_id "tags" (.strList p.tags)]

/-- `app.py`'s `ingest_product_transaction`. -/
def ingest_product_transaction (p : AppProductRec) (g : Graph) : Graph :=
  applyPlan g (appProductPlan p)

/-! ## List helper lemmas -/

theorem find?_append_some {α : Type} {p : α → Bool} {l : List α} {a : α}
    (h : l.find? p = some a) (l2 : List α) : (l ++ l2).find? p = some a := by
  induction l with
  | nil => simp [List.find?] at h
  | cons x xs ih =>
    by_cases hx : p x = true
    · rw [List.find?_cons_of_pos _ hx] at h
      simpa [List.find?_cons_of_pos _ hx] using h
    · rw [List.find?_cons_of_neg _ hx] at h
      simpa [List.find?_cons_of_neg _ hx] using ih h

theorem find?_append_none {α : Type} {p : α → Bool} {l : List α}
    (h : l.find? p = none) (l2 : List α) : (l ++ l2).find? p = l2.find? p := by
  induction l with
  | nil => simp
  | cons x xs ih =>
    by_cases hx : p x = true
    · rw [List.find?_cons_of_pos _ hx] at h; cases h
    · rw [List.find?_cons_of_neg _ hx] at h
      simpa [List.find?_cons_of_neg _ hx] using ih h

theorem find?_map_invar {α : Type} {p : α → Bool} {f : α → α}
    (hf : ∀ a, p (f a) = p a) (l : List α) :
    (l.map f).find? p = (l.find? p).map f := by
  induction l with
  | nil => simp
  | cons x xs ih =>
    by_cases hx : p x = true
    · rw [List.map_cons, List.find?_cons_of_pos _ ((hf x).trans hx),
        List.find?_cons_of_pos _ hx]
      simp
    · rw [List.map_cons, List.find?_cons_of_neg _ (by simp [hf x, hx]),
        List.find?_cons_of_neg _ hx, ih]

theorem countP_map_invar {α : Type} {p : α → Bool} {f : α → α}
    (hf : ∀ a, p (f a) = p a) (l : List α) :
    (l.map f).countP p = l.countP p := by
  induction l with
  | nil => simp
  | cons x xs ih => simp [List.countP_cons, hf x, ih]

theorem countP_eq_zero_of_find?_none {α : Type} {p : α → Bool} {l : List α}
    (h : l.find? p = none) : l.countP p = 0 := by
  induction l with
  | nil => simp
  | cons x xs ih =>
    by_cases hx : p x = true
    · rw [List.find?_cons_of_pos _ hx] at h; cases h
    · rw [List.find?_cons_of_neg _ hx] at h
      simp [List.countP_cons, hx, ih h]

theorem countP_pos_of_find?_some {α : Type} {p : α → Bool} {l : List α} {a : α}
    (h : l.find? p = some a) : 0 < l.countP p :=
  List.countP_pos_iff.mpr ⟨a, List.mem_of_find?_eq_some h, List.find?_some h⟩

/-! ## Basic lemmas about the merge operations -/

theorem edges_mergeNode (g : Graph) (l : Label) (k : String) (ps : List (String × Val)) :
    (g.mergeNode l k ps).edges = g.edges := by
  unfold Graph.mergeNode; split <;> rfl

theorem nodes_mergeEdge (g : Graph) (q : EdgeKey) (ps : List (String × Val)) :
    (g.mergeEdge q ps).nodes = g.nodes := by
  unfold Graph.mergeEdge; split <;> rfl

theorem nodes_mergeEdgeRefresh (g : Graph) (q : EdgeKey) (ps : List (String × Val)) :
    (g.mergeEdgeRefresh q ps).nodes = g.nodes := by
  unfold Graph.mergeEdgeRefresh; split <;> rfl

theorem edges_setNodeProp (g : Graph) (l : Label) (k : String) (f : String) (v : Val) :
    (g.setNodeProp l k f v).edges = g.edges := rfl

theorem nodeKeyP_self (l : Label) (k : String) (ps : List (String × Val)) :
    nodeKeyP l k ⟨l, k, ps⟩ = true := by simp [nodeKeyP]

theorem edgeKeyP_self (q : EdgeKey) (ps : List (String × Val)) :
    edgeKeyP q ⟨q, ps⟩ = true := by simp [edgeKeyP]

theorem mergeNode_of_hasNode {g : Graph} {l : Label} {k : String}
    (ps : List (String × Val)) (h : g.hasNode l k = true) :
    g.mergeNode l k ps = g := by
  unfold Graph.mergeNode; rw [if_pos h]

theorem mergeEdge_of_hasEdge {g : Graph} {q : EdgeKey}
    (ps : List (String × Val)) (h : g.hasEdge q = true) :
    g.mergeEdge q ps = g := by
  unfold Graph.mergeEdge; rw [if_pos h]

theorem findNode_mergeNode_of_none {g : Graph} {l : Label} {k : String}
    (ps : List (String × Val)) (h : g.findNode l k = none) :
    (g.mergeNode l k ps).findNode l k = some ⟨l, k, ps⟩ := by
  unfold Graph.mergeNode Graph.hasNode
  rw [h]
  simp only [Option.isSome_none, Bool.false_eq_true, if_false]
  unfold Graph.findNode at h ⊢
  rw [find?_append_none h, List.find?_cons_of_pos _ (nodeKeyP_self l k ps)]

theorem hasNode_mergeNode_self (g : Graph) (l : Label) (k : String)
    (ps : List (String × Val)) : (g.mergeNode l k ps).hasNode l k = true := by
  unfold Graph.mergeNode
  by_cases h : g.hasNode l k = true
  · rw [if_pos h]; exact h
  · rw [if_neg h]
    unfold Graph.hasNode Graph.findNode at h ⊢
    simp only [List.find?_append]
    cases hf : g.nodes.find? (nodeKeyP l k) with
    | some n => simp [find?_append_some hf]
    | none => simp [find?_append_none hf, List.find?_cons_of_pos _ (nodeKeyP_self l k ps)]

theorem hasEdge_mergeEdge_self (g : Graph) (q : EdgeKey)
    (ps : List (String × Val)) : (g.mergeEdge q ps).hasEdge q = true := by
  unfold Graph.mergeEdge
  by_cases h : g.hasEdge q = true
  · rw [if_pos h]; exact h
  · rw [if_neg h]
    unfold Graph.hasEdge Graph.findEdge at h ⊢
    cases hf : g.edges.find? (edgeKeyP q) with
    | some e => simp [find?_append_some hf]
    | none => simp [find?_append_none hf, List.find?_cons_of_pos _ (edgeKeyP_self q ps)]

theorem edgeKeyP_refresh_invar (q q2 : EdgeKey) (ps : List (String × Val)) :
    ∀ e : Edge, edgeKeyP q (if edgeKeyP q2 e then { e with props := ps } else e) = edgeKeyP q e := by
  intro e
  unfold edgeKeyP
  split <;> rfl

theorem findEdge_mergeEdgeRefresh_self (g : Graph) (q : EdgeKey)
    (ps : List (String × Val)) :
    (g.mergeEdgeRefresh q ps).findEdge q = some ⟨q, ps⟩ := by
  unfold Graph.mergeEdgeRefresh
  by_cases h : g.hasEdge q = true
  · rw [if_pos h]
    unfold Graph.hasEdge at h
    unfold Graph.findEdge at h ⊢
    cases hf : g.edges.find? (edgeKeyP q) with
    | none => rw [hf] at h; simp at h
    | some e =>
      have he : edgeKeyP q e = true := List.find?_some hf
      have hekey : e.ekey = q := by simpa [edgeKeyP] using he
      show (g.edges.map (fun e => if edgeKeyP q e then { e with props := ps } else e)).find? (edgeKeyP q) = some ⟨q, ps⟩
      rw [find?_map_invar (edgeKeyP_refresh_invar q q ps), hf]
      simp [he, hekey]
  · rw [if_neg h]
    unfold Graph.hasEdge at h
    unfold Graph.findEdge at h
    show (g.edges ++ [(⟨q, ps⟩ : Edge)]).find? (edgeKeyP q) = some ⟨q, ps⟩
    cases hf : g.edges.find? (edgeKeyP q) with
    | some e => rw [hf] at h; simp at h
    | none => rw [find?_append_none hf, List.find?_cons_of_pos _ (edgeKeyP_self q ps)]

theorem nodeKeyP_setProp_invar (l : Label) (k : String) (l2 : Label) (k2 : String)
    (f : String) (v : Val) :
    ∀ n : Node, nodeKeyP l k (if nodeKeyP l2 k2 n then { n with props := setP n.props f v } else n) = nodeKeyP l k n := by
  intro n
  unfold nodeKeyP
  split <;> rfl

/-- Operations other than an unconditional SET preserve an existing node
lookup result. -/
def MergeOp.setFree : MergeOp → Bool
  | .setProp _ _ _ _ => false
  | _ => true

/-- Plain match-or-create operations (no ON MATCH refresh, no SET). -/
def MergeOp.plain : MergeOp → Bool
  | .node _ _ _ => true
  | .edge _ _ => true
  | _ => false

/-- Does the operation leave edges with identity `q` untouched once present? -/
def MergeOp.keepsEdge (q : EdgeKey) : MergeOp → Bool
  | .edgeRefresh q2 _ => decide (¬ q2 = q)
  | _ => true

theorem hasNode_applyOp {g : Graph} {l : Label} {k : String}
    (h : g.hasNode l k = true) (op : MergeOp) : (applyOp g op).hasNode l k = true := by
  cases op with
  | node l2 k2 ps =>
    show (g.mergeNode l2 k2 ps).hasNode l k = true
    unfold Graph.mergeNode
    split
    · exact h
    · unfold Graph.hasNode Graph.findNode at h ⊢
      obtain ⟨n, hn⟩ := Option.isSome_iff_exists.mp h
      rw [find?_append_some hn]; rfl
  | edge q ps =>
    show (g.mergeEdge q ps).hasNode l k = true
    unfold Graph.hasNode Graph.findNode
    rw [nodes_mergeEdge]; exact h
  | edgeRefresh q ps =>
    show (g.mergeEdgeRefresh q ps).hasNode l k = true
    unfold Graph.hasNode Graph.findNode
    rw [nodes_mergeEdgeRefresh]; exact h
  | setProp l2 k2 f v =>
    show (g.setNodeProp l2 k2 f v).hasNode l k = true
    unfold Graph.hasNode Graph.findNode at h ⊢
    show ((g.nodes.map _).find? _).isSome = true
    rw [find?_map_invar (nodeKeyP_setProp_invar l k l2 k2 f v)]
    obtain ⟨n, hn⟩ := Option.isSome_iff_exists.mp h
    rw [hn]; rfl

theorem hasEdge_applyOp {g : Graph} {q : EdgeKey}
    (h : g.hasEdge q = true) (op : MergeOp) : (applyOp g op).hasEdge q = true := by
  cases op with
  | node l2 k2 ps =>
    show (g.mergeNode l2 k2 ps).hasEdge q = true
    unfold Graph.hasEdge Graph.findEdge
    rw [edges_mergeNode]; exact h
  | edge q2 ps =>
    show (g.mergeEdge q2 ps).hasEdge q = true
    unfold Graph.mergeEdge
    split
    · exact h
    · unfold Graph.hasEdge Graph.findEdge at h ⊢
      obtain ⟨e, he⟩ := Option.isSome_iff_exists.mp h
      rw [find?_append_some he]; rfl
  | edgeRefresh q2 ps =>
    show (g.mergeEdgeRefresh q2 ps).hasEdge q = true
    unfold Graph.mergeEdgeRefresh
    split
    · unfold Graph.hasEdge Graph.findEdge at h ⊢
      show ((g.edges.map _).find? _).isSome = true
      rw [find?_map_invar (edgeKeyP_refresh_invar q q2 ps)]
      obtain ⟨e, he⟩ := Option.isSome_iff_exists.mp h
      rw [he]; rfl
    · unfold Graph.hasEdge Graph.findEdge at h ⊢
      obtain ⟨e, he⟩ := Option.isSome_iff_exists.mp h
      rw [find?_append_some he]; rfl
  | setProp l2 k2 f v =>
    show (g.setNodeProp l2 k2 f v).hasEdge q = true
    unfold Graph.hasEdge Graph.findEdge
    rw [edges_setNodeProp]; exact h

theorem findNode_some_applyOp {g : Graph} {l : Label} {k : String} {n : Node}
    (h : g.findNode l k = some n) (op : MergeOp) (hop : op.setFree = true) :
    (applyOp g op).findNode l k = some n := by
  cases op with
  | node l2 k2 ps =>
    show (g.mergeNode l2 k2 ps).findNode l k = some n
    unfold Graph.mergeNode
    split
    · exact h
    · unfold Graph.findNode at h ⊢
      exact find?_append_some h _
  | edge q ps =>
    show (g.mergeEdge q ps).findNode l k = some n
    unfold Graph.findNode
    rw [nodes_mergeEdge]; exact h
  | edgeRefresh q ps =>
    show (g.mergeEdgeRefresh q ps).findNode l k = some n
    unfold Graph.findNode
    rw [nodes_mergeEdgeRefresh]; exact h
  | setProp l2 k2 f v => simp [MergeOp.setFree] at hop

theorem findNode_none_applyOp_node {g : Graph} {l : Label} {k : String}
    (h : g.findNode l k = none) {l2 : Label} {k2 : String}
    (hne : ¬ (l2 = l ∧ k2 = k)) (ps : List (String × Val)) :
    (g.mergeNode l2 k2 ps).findNode l k = none := by
  unfold Graph.mergeNode
  split
  · exact h
  · unfold Graph.findNode at h ⊢
    rw [find?_append_none h]
    have : nodeKeyP l k ⟨l2, k2, ps⟩ = false := by
      simp only [nodeKeyP, decide_eq_false_iff_not]
      exact hne
    rw [List.find?_cons_of_neg _ (by simp [this]), List.find?_nil]

theorem findEdge_some_applyOp {g : Graph} {q : EdgeKey} {e : Edge}
    (h : g.findEdge q = some e) {op : MergeOp} (hop : op.keepsEdge q = true) :
    (applyOp g op).findEdge q = some e := by
  cases op with
  | node l2 k2 ps =>
    show (g.mergeNode l2 k2 ps).findEdge q = some e
    unfold Graph.findEdge
    rw [edges_mergeNode]; exact h
  | edge q2 ps =>
    show (g.mergeEdge q2 ps).findEdge q = some e
    unfold Graph.mergeEdge
    split
    · exact h
    · unfold Graph.findEdge at h ⊢
      exact find?_append_some h _
  | edgeRefresh q2 ps =>
    have hne : ¬ q2 = q := by simpa [MergeOp.keepsEdge] using hop
    show (g.mergeEdgeRefresh q2 ps).findEdge q = some e
    unfold Graph.mergeEdgeRefresh
    split
    · unfold Graph.findEdge at h ⊢
      show (g.edges.map _).find? _ = some e
      rw [find?_map_invar (edgeKeyP_refresh_invar q q2 ps), h]
      have heq : e.ekey = q := by simpa [edgeKeyP] using List.find?_some h
      have : edgeKeyP q2 e = false := by
        simp only [edgeKeyP, decide_eq_false_iff_not, heq]
        exact fun hc => hne hc.symm
      simp [this]
    · unfold Graph.findEdge at h ⊢
      exact find?_append_some h _
  | setProp l2 k2 f v =>
    show (g.setNodeProp l2 k2 f v).findEdge q = some e
    unfold Graph.findEdge
    rw [edges_setNodeProp]; exact h

/-! ## Done operations and idempotence -/

/-- The operation's target already exists in `g` (with, for refresh
operations, any properties). -/
def opDone (g : Graph) : MergeOp → Prop
  | .node l k _ => g.hasNode l k = true
  | .edge q _ => g.hasEdge q = true
  | .edgeRefresh q _ => g.hasEdge q = true
  | .setProp _ _ _ _ => True

theorem opDone_applyOp_mono {g : Graph} {op2 : MergeOp} (h : opDone g op2)
    (op : MergeOp) : opDone (applyOp g op) op2 := by
  cases op2 with
  | node l k ps => exact hasNode_applyOp h op
  | edge q ps => exact hasEdge_applyOp h op
  | edgeRefresh q ps => exact hasEdge_applyOp h op
  | setProp l k f v => trivial

theorem opDone_applyOp_self (g : Graph) (op : MergeOp) :
    opDone (applyOp g op) op := by
  cases op with
  | node l k ps => exact hasNode_mergeNode_self g l k ps
  | edge q ps => exact hasEdge_mergeEdge_self g q ps
  | edgeRefresh q ps =>
    show (g.mergeEdgeRefresh q ps).hasEdge q = true
    unfold Graph.hasEdge
    rw [findEdge_mergeEdgeRefresh_self]; rfl
  | setProp l k f v => trivial

theorem opDone_applyPlan {g : Graph} {op2 : MergeOp} (h : opDone g op2) :
    ∀ P : List MergeOp, opDone (applyPlan g P) op2 := by
  intro P
  induction P generalizing g with
  | nil => exact h
  | cons op ops ih => exact ih (opDone_applyOp_mono h op)

theorem planDone (g : Graph) (P : List MergeOp) :
    ∀ op ∈ P, opDone (applyPlan g P) op := by
  induction P generalizing g with
  | nil => intro op hop; cases hop
  | cons op2 ops ih =>
    intro op hop
    cases List.mem_cons.mp hop with
    | inl heq =>
      subst heq
      exact opDone_applyPlan (opDone_applyOp_self g op) ops
    | inr hmem => exact ih (applyOp g op2) op hmem

theorem applyOp_of_done {g : Graph} {op : MergeOp} (h : opDone g op)
    (hp : op.plain = true) : applyOp g op = g := by
  cases op with
  | node l k ps => exact mergeNode_of_hasNode ps h
  | edge q ps => exact mergeEdge_of_hasEdge ps h
  | edgeRefresh q ps => simp [MergeOp.plain] at hp
  | setProp l k f v => simp [MergeOp.plain] at hp

theorem applyPlan_of_done {g : Graph} {P : List MergeOp}
    (hall : ∀ op ∈ P, opDone g op) (hp : ∀ op ∈ P, op.plain = true) :
    applyPlan g P = g := by
  induction P with
  | nil => rfl
  | cons op ops ih =>
    show applyPlan (applyOp g op) ops = g
    rw [applyOp_of_done (hall op (List.mem_cons_self _ _)) (hp op (List.mem_cons_self _ _))]
    exact ih (fun o ho => hall o (List.mem_cons_of_mem _ ho))
      (fun o ho => hp o (List.mem_cons_of_mem _ ho))

/-- A plan of plain merges is idempotent: replaying it on its own result is a
no-op. -/
theorem applyPlan_idem {P : List MergeOp} (hp : ∀ op ∈ P, op.plain = true)
    (g : Graph) : applyPlan (applyPlan g P) P = applyPlan g P :=
  applyPlan_of_done (planDone g P) hp

theorem countEdges_applyOp_of_done {g : Graph} {op : MergeOp}
    (h : opDone g op) (q : EdgeKey) :
    (applyOp g op).countEdges q = g.countEdges q := by
  cases op with
  | node l k ps =>
    show (g.mergeNode l k ps).countEdges q = g.countEdges q
    unfold Graph.countEdges
    rw [edges_mergeNode]
  | edge q2 ps =>
    show (g.mergeEdge q2 ps).countEdges q = g.countEdges q
    rw [mergeEdge_of_hasEdge ps h]
  | edgeRefresh q2 ps =>
    show (g.mergeEdgeRefresh q2 ps).countEdges q = g.countEdges q
    unfold Graph.mergeEdgeRefresh
    have h2 : g.hasEdge q2 = true := h
    rw [if_pos h2]
    show (g.edges.map _).countP _ = _
    rw [countP_map_invar (edgeKeyP_refresh_invar q q2 ps)]
    rfl
  | setProp l k f v =>
    show (g.setNodeProp l k f v).countEdges q = g.countEdges q
    unfold Graph.countEdges
    rw [edges_setNodeProp]

theorem countEdges_applyPlan_of_done {g : Graph} {P : List MergeOp}
    (hall : ∀ op ∈ P, opDone g op) (q : EdgeKey) :
    (applyPlan g P).countEdges q = g.countEdges q := by
  induction P generalizing g with
  | nil => rfl
  | cons op ops ih =>
    show (applyPlan (applyOp g op) ops).countEdges q = g.countEdges q
    rw [ih (fun o ho => opDone_applyOp_mono (hall o (List.mem_cons_of_mem _ ho)) op)]
    exact countEdges_applyOp_of_done (hall op (List.mem_cons_self _ _)) q

/-- Re-running any merge plan over its own result never duplicates an edge:
every edge-identity count is unchanged. -/
theorem countEdges_replay (g : Graph) (P : List MergeOp) (q : EdgeKey) :
    (applyPlan (applyPlan g P) P).countEdges q = (applyPlan g P).countEdges q :=
  countEdges_applyPlan_of_done (planDone g P) q

/-! ## Uniqueness invariant -/

/-- The database invariant the spec states: at most one node per
(label, identity key) and at most one edge per edge identity. -/
def Graph.Wf (g : Graph) : Prop :=
  (∀ l k, g.countNodes l k ≤ 1) ∧ (∀ q, g.countEdges q ≤ 1)

theorem Wf_empty : emptyGraph.Wf := by
  constructor
  · intro l k; simp [emptyGraph, Graph.countNodes]
  · intro q; simp [emptyGraph, Graph.countEdges]

theorem one_le_countNodes {g : Graph} {l : Label} {k : String}
    (h : g.hasNode l k = true) : 1 ≤ g.countNodes l k := by
  obtain ⟨n, hn⟩ := Option.isSome_iff_exists.mp h
  exact countP_pos_of_find?_some hn

theorem one_le_countEdges {g : Graph} {q : EdgeKey}
    (h : g.hasEdge q = true) : 1 ≤ g.countEdges q := by
  obtain ⟨e, he⟩ := Option.isSome_iff_exists.mp h
  exact countP_pos_of_find?_some he

theorem countNodes_eq_one {g : Graph} {l : Label} {k : String}
    (hWf : g.Wf) (h : g.hasNode l k = true) : g.countNodes l k = 1 :=
  Nat.le_antisymm (hWf.1 l k) (one_le_countNodes h)

theorem countEdges_eq_one {g : Graph} {q : EdgeKey}
    (hWf : g.Wf) (h : g.hasEdge q = true) : g.countEdges q = 1 :=
  Nat.le_antisymm (hWf.2 q) (one_le_countEdges h)

theorem Wf_applyOp {g : Graph} (h : g.Wf) (op : MergeOp) : (applyOp g op).Wf := by
  cases op with
  | node l2 k2 ps =>
    show (g.mergeNode l2 k2 ps).Wf
    unfold Graph.mergeNode
    split
    · exact h
    · next hnot =>
      constructor
      · intro l k
        show (g.nodes ++ [(⟨l2, k2, ps⟩ : Node)]).countP (nodeKeyP l k) ≤ 1
        rw [List.countP_append]
        by_cases hm : nodeKeyP l k ⟨l2, k2, ps⟩ = true
        · obtain ⟨hl, hk⟩ : l2 = l ∧ k2 = k := by simpa [nodeKeyP] using hm
          subst hl; subst hk
          have hnone : g.findNode l2 k2 = none := by
            unfold Graph.hasNode at hnot
            exact Option.not_isSome_iff_eq_none.mp hnot
          have h0 : g.countNodes l2 k2 = 0 := countP_eq_zero_of_find?_none hnone
          unfold Graph.countNodes at h0
          simp [h0, List.countP_cons, hm]
        · have : (nodeKeyP l k) ⟨l2, k2, ps⟩ = false := by
            simpa using hm
          simp only [List.countP_cons, List.countP_nil, this, Bool.false_eq_true, if_false, Nat.add_zero]
          exact h.1 l k
      · intro q
        show (g.edges).countP (edgeKeyP q) ≤ 1
        exact h.2 q
  | edge q2 ps =>
    show (g.mergeEdge q2 ps).Wf
    unfold Graph.mergeEdge
    split
    · exact h
    · next hnot =>
      constructor
      · intro l k; exact h.1 l k
      · intro q
        show (g.edges ++ [(⟨q2, ps⟩ : Edge)]).countP (edgeKeyP q) ≤ 1
        rw [List.countP_append]
        by_cases hm : edgeKeyP q ⟨q2, ps⟩ = true
        · have hq : q2 = q := by simpa [edgeKeyP] using hm
          subst hq
          have hnone : g.findEdge q2 = none := by
            unfold Graph.hasEdge at hnot
            exact Option.not_isSome_iff_eq_none.mp hnot
          have h0 : g.countEdges q2 = 0 := countP_eq_zero_of_find?_none hnone
          unfold Graph.countEdges at h0
          simp [h0, List.countP_cons, hm]
        · have : (edgeKeyP q) ⟨q2, ps⟩ = false := by simpa using hm
          simp only [List.countP_cons, List.countP_nil, this, Bool.false_eq_true, if_false, Nat.add_zero]
          exact h.2 q
  | edgeRefresh q2 ps =>
    show (g.mergeEdgeRefresh q2 ps).Wf
    unfold Graph.mergeEdgeRefresh
    split
    · constructor
      · intro l k; exact h.1 l k
      · intro q
        show (g.edges.map _).countP (edgeKeyP q) ≤ 1
        rw [countP_map_invar (edgeKeyP_refresh_invar q q2 ps)]
        exact h.2 q
    · next hnot =>
      constructor
      · intro l k; exact h.1 l k
      · intro q
        show (g.edges ++ [(⟨q2, ps⟩ : Edge)]).countP (edgeKeyP q) ≤ 1
        rw [List.countP_append]
        by_cases hm : edgeKeyP q ⟨q2, ps⟩ = true
        · have hq : q2 = q := by simpa [edgeKeyP] using hm
          subst hq
          have hnone : g.findEdge q2 = none := by
            unfold Graph.hasEdge at hnot
            exact Option.not_isSome_iff_eq_none.mp hnot
          have h0 : g.countEdges q2 = 0 := countP_eq_zero_of_find?_none hnone
          unfold Graph.countEdges at h0
          simp [h0, List.countP_cons, hm]
        · have : (edgeKeyP q) ⟨q2, ps⟩ = false := by simpa using hm
          simp only [List.countP_cons, List.countP_nil, this, Bool.false_eq_true, if_false, Nat.add_zero]
          exact h.2 q
  | setProp l2 k2 f v =>
    show (g.setNodeProp l2 k2 f v).Wf
    constructor
    · intro l k
      show (g.nodes.map _).countP (nodeKeyP l k) ≤ 1
      rw [countP_map_invar (nodeKeyP_setProp_invar l k l2 k2 f v)]
      exact h.1 l k
    · intro q
      show (g.edges).countP (edgeKeyP q) ≤ 1
      exact h.2 q

theorem Wf_applyPlan {g : Graph} (h : g.Wf) (P : List MergeOp) :
    (applyPlan g P).Wf := by
  induction P generalizing g with
  | nil => exact h
  | cons op ops ih => exact ih (Wf_applyOp h op)

/-! ## Plan-level preservation lemmas -/

theorem applyPlan_append (g : Graph) (P Q : List MergeOp) :
    applyPlan g (P ++ Q) = applyPlan (applyPlan g P) Q := by
  induction P generalizing g with
  | nil => rfl
  | cons op ops ih => exact ih (applyOp g op)

theorem findNode_some_applyPlan {g : Graph} {l : Label} {k : String} {n : Node}
    {P : List MergeOp} (hP : ∀ op ∈ P, op.setFree = true)
    (h : g.findNode l k = some n) : (applyPlan g P).findNode l k = some n := by
  induction P generalizing g with
  | nil => exact h
  | cons op ops ih =>
    exact ih (fun o ho => hP o (List.mem_cons_of_mem _ ho))
      (findNode_some_applyOp h op (hP op (List.mem_cons_self _ _)))

theorem findEdge_some_applyPlan {g : Graph} {q : EdgeKey} {e : Edge}
    {P : List MergeOp} (hP : ∀ op ∈ P, op.keepsEdge q = true)
    (h : g.findEdge q = some e) : (applyPlan g P).findEdge q = some e := by
  induction P generalizing g with
  | nil => exact h
  | cons op ops ih =>
    exact ih (fun o ho => hP o (List.mem_cons_of_mem _ ho))
      (findEdge_some_applyOp h (hP op (List.mem_cons_self _ _)))

theorem hasNode_applyPlan_of_mem {g : Graph} {P : List MergeOp}
    {tl : Label} {k : String} {ps : List (String × Val)}
    (hmem : MergeOp.node tl k ps ∈ P) : (applyPlan g P).hasNode tl k = true :=
  planDone g P _ hmem

theorem hasEdge_applyPlan_of_mem {g : Graph} {P : List MergeOp}
    {q : EdgeKey} {ps : List (String × Val)}
    (hmem : MergeOp.edge q ps ∈ P) : (applyPlan g P).hasEdge q = true :=
  planDone g P _ hmem

/-! ## Fan-out lemmas -/

theorem MergeOp.setFree_of_plain {op : MergeOp} (h : op.plain = true) :
    op.setFree = true := by
  cases op <;> first | rfl | exact h

theorem fanOps_plain (src : Label × String) (r : Rel) (tl : Label)
    (items : List (String × List (String × Val) × List (String × Val))) :
    ∀ op ∈ fanOps src r tl items, op.plain = true := by
  intro op hop
  obtain ⟨it, hit, hop2⟩ := List.mem_flatMap.mp hop
  rcases List.mem_cons.mp hop2 with rfl | hop3
  · rfl
  · rcases List.mem_cons.mp hop3 with rfl | hop4
    · rfl
    · cases hop4

theorem mem_fanOps_node {it : String × List (String × Val) × List (String × Val)}
    {items : List (String × List (String × Val) × List (String × Val))}
    (hit : it ∈ items) (src : Label × String) (r : Rel) (tl : Label) :
    MergeOp.node tl it.1 it.2.1 ∈ fanOps src r tl items :=
  List.mem_flatMap.mpr ⟨it, hit, by simp⟩

theorem mem_fanOps_edge {it : String × List (String × Val) × List (String × Val)}
    {items : List (String × List (String × Val) × List (String × Val))}
    (hit : it ∈ items) (src : Label × String) (r : Rel) (tl : Label) :
    MergeOp.edge ⟨src.1, src.2, r, tl, it.1⟩ it.2.2 ∈ fanOps src r tl items :=
  List.mem_flatMap.mpr ⟨it, hit, by simp⟩

/-- The first element of the fan-out list bearing key `k` creates the node
(with its ON CREATE properties); later elements with the same key do not
modify it. -/
theorem fanOps_findNode_first (src : Label × String) (r : Rel) {tl : Label}
    {k : String} {items : List (String × List (String × Val) × List (String × Val))}
    {it : String × List (String × Val) × List (String × Val)} {g : Graph}
    (hg : g.findNode tl k = none)
    (hit : items.find? (fun x => decide (x.1 = k)) = some it) :
    (applyPlan g (fanOps src r tl items)).findNode tl k = some ⟨tl, k, it.2.1⟩ := by
  induction items generalizing g with
  | nil => cases hit
  | cons x xs ih =>
    have hplan : fanOps src r tl (x :: xs)
        = MergeOp.node tl x.1 x.2.1 ::
          MergeOp.edge ⟨src.1, src.2, r, tl, x.1⟩ x.2.2 :: fanOps src r tl xs := by
      simp [fanOps]
    rw [hplan]
    by_cases hx : x.1 = k
    · rw [List.find?_cons_of_pos _ (by simp [hx])] at hit
      injection hit with hit2
      subst hit2
      show (applyPlan (applyOp (applyOp g _) _) (fanOps src r tl xs)).findNode tl k
          = some ⟨tl, k, x.2.1⟩
      have h1 : (applyOp g (MergeOp.node tl x.1 x.2.1)).findNode tl k
          = some ⟨tl, k, x.2.1⟩ := by
        subst hx
        exact findNode_mergeNode_of_none x.2.1 hg
      have h2 := findNode_some_applyOp h1
        (MergeOp.edge ⟨src.1, src.2, r, tl, x.1⟩ x.2.2) rfl
      exact findNode_some_applyPlan
        (fun o ho => MergeOp.setFree_of_plain (fanOps_plain src r tl xs o ho)) h2
    · rw [List.find?_cons_of_neg _ (by simp [hx])] at hit
      show (applyPlan (applyOp (applyOp g _) _) (fanOps src r tl xs)).findNode tl k
          = some ⟨tl, k, it.2.1⟩
      have h1 : (applyOp g (MergeOp.node tl x.1 x.2.1)).findNode tl k = none :=
        findNode_none_applyOp_node hg (fun hc => hx hc.2) x.2.1
      have h2 : (applyOp (applyOp g (MergeOp.node tl x.1 x.2.1))
          (MergeOp.edge ⟨src.1, src.2, r, tl, x.1⟩ x.2.2)).findNode tl k = none := by
        show ((applyOp g (MergeOp.node tl x.1 x.2.1)).mergeEdge _ _).findNode tl k = none
        unfold Graph.findNode
        rw [nodes_mergeEdge]
        exact h1
      exact ih h2 hit

/-! ## Shape lemmas for the concrete plans -/

theorem productPlan_plain (p : ProductRec) (pid : String) :
    ∀ op ∈ productPlan p pid, op.plain = true := by
  intro op hop
  unfold productPlan at hop
  rcases List.mem_cons.mp hop with rfl | hop
  · rfl
  rcases List.mem_append.mp hop with hop | hop
  · exact fanOps_plain _ _ _ _ op hop
  by_cases h1 : p.categories = []
  · rw [if_pos h1] at hop; cases hop
  rw [if_neg h1] at hop
  rcases List.mem_append.mp hop with hop | hop
  · exact fanOps_plain _ _ _ _ op hop
  by_cases h2 : p.collections = []
  · rw [if_pos h2] at hop; cases hop
  rw [if_neg h2] at hop
  rcases List.mem_append.mp hop with hop | hop
  · exact fanOps_plain _ _ _ _ op hop
  by_cases h3 : p.partners = []
  · rw [if_pos h3] at hop; cases hop
  rw [if_neg h3] at hop
  rcases List.mem_cons.mp hop with rfl | hop
  · rfl
  rcases List.mem_cons.mp hop with rfl | hop
  · rfl
  cases hop

theorem salesChannelPlan_setFree (o : OrderRec) :
    ∀ op ∈ salesChannelPlan o, op.setFree = true := by
  intro op hop
  unfold salesChannelPlan at hop
  cases hsc : o.sales_channel with
  | none => rw [hsc] at hop; cases hop
  | some sc =>
    rw [hsc] at hop
    simp only [List.mem_cons, List.not_mem_nil, or_false] at hop
    rcases hop with rfl | rfl <;> rfl

theorem shipmentsPlan_setFree (o : OrderRec) :
    ∀ op ∈ shipmentsPlan o, op.setFree = true := by
  intro op hop
  unfold shipmentsPlan at hop
  obtain ⟨s, hs, hop2⟩ := List.mem_flatMap.mp hop
  rcases List.mem_append.mp hop2 with hop3 | hop3
  · simp only [List.mem_cons, List.not_mem_nil, or_false] at hop3
    rcases hop3 with rfl | rfl <;> rfl
  · obtain ⟨it, hit, hop4⟩ := List.mem_flatMap.mp hop3
    simp only [List.mem_cons, List.not_mem_nil, or_false] at hop4
    rcases hop4 with rfl | rfl <;> rfl

theorem orderItemsPlan_setFree (o : OrderRec) :
    ∀ op ∈ orderItemsPlan o, op.setFree = true := by
  intro op hop
  unfold orderItemsPlan at hop
  split at hop
  · cases hop
  · obtain ⟨it, hit, hop2⟩ := List.mem_flatMap.mp hop
    simp only [List.mem_cons, List.not_mem_nil, or_false] at hop2
    rcases hop2 with rfl | rfl <;> rfl

theorem customerTailPlan_setFree (c : CustomerRec) :
    ∀ op ∈ customerTailPlan c, op.setFree = true := by
  intro op hop
  unfold customerTailPlan at hop
  by_cases h1 : c.addresses = []
  · rw [if_pos h1] at hop; cases hop
  rw [if_neg h1] at hop
  rcases List.mem_append.mp hop with hop | hop
  · exact MergeOp.setFree_of_plain (fanOps_plain _ _ _ _ op hop)
  by_cases h2 : c.payment_methods = []
  · rw [if_pos h2] at hop; cases hop
  rw [if_neg h2] at hop
  exact MergeOp.setFree_of_plain (fanOps_plain _ _ _ _ op hop)

theorem customerAddressesPlan_setFree (c : CustomerRec) :
    ∀ op ∈ customerAddressesPlan c, op.setFree = true := by
  intro op hop
  unfold customerAddressesPlan at hop
  exact MergeOp.setFree_of_plain (fanOps_plain _ _ _ _ op hop)

/-! ## Loop and trace lemmas -/

theorem ingest_loop_trace {α : Type} (f : Family) (step : α → Graph → Graph)
    (g : Graph) (rs : List α) :
    ingest_loop f step g rs = ((rs.foldl (fun h r => step r h) g),
      List.replicate rs.length f) := by
  induction rs generalizing g with
  | nil => rfl
  | cons r rs ih => simp [ingest_loop, ih, List.replicate_succ]

theorem ingest_loop_products_mem (g : Graph) (ps : List ProductRec) :
    ∀ x ∈ (ingest_loop_products g ps).2, x = Family.product := by
  induction ps generalizing g with
  | nil => intro x hx; cases hx
  | cons p ps ih =>
    intro x hx
    unfold ingest_loop_products at hx
    cases hp : ingest_product p g with
    | error e => rw [hp] at hx; cases hx
    | ok g2 =>
      rw [hp] at hx
      rcases List.mem_cons.mp hx with rfl | hx
      · rfl
      · exact ih g2 x hx

theorem ingest_loop_products_ok (g : Graph) (ps : List ProductRec)
    (h : ∀ p ∈ ps, (p.product_id).isSome = true) :
    ∃ g2, ingest_loop_products g ps
      = (.ok g2, List.replicate ps.length Family.product) := by
  induction ps generalizing g with
  | nil => exact ⟨g, rfl⟩
  | cons p ps ih =>
    obtain ⟨pid, hpid⟩ := Option.isSome_iff_exists.mp (h p (List.mem_cons_self _ _))
    obtain ⟨g2, hg2⟩ := ih (ingest_product_tx p pid g)
      (fun x hx => h x (List.mem_cons_of_mem _ hx))
    refine ⟨g2, ?_⟩
    unfold ingest_loop_products
    rw [show ingest_product p g = .ok (ingest_product_tx p pid g) by
      unfold ingest_product; rw [hpid]]
    simp [hg2, List.replicate_succ]

theorem ingest_loop_products_bad (g : Graph) (ps1 : List ProductRec)
    (bad : ProductRec) (ps2 : List ProductRec)
    (h1 : ∀ p ∈ ps1, (p.product_id).isSome = true)
    (h2 : bad.product_id = none) :
    ingest_loop_products g (ps1 ++ bad :: ps2)
      = (.error (.missingKey "product_id"),
         List.replicate ps1.length Family.product) := by
  induction ps1 generalizing g with
  | nil =>
    show ingest_loop_products g (bad :: ps2) = _
    unfold ingest_loop_products
    rw [show ingest_product bad g = .error (.missingKey "product_id") by
      unfold ingest_product; rw [h2]]
    rfl
  | cons p ps1 ih =>
    obtain ⟨pid, hpid⟩ := Option.isSome_iff_exists.mp (h1 p (List.mem_cons_self _ _))
    show ingest_loop_products g (p :: (ps1 ++ bad :: ps2)) = _
    unfold ingest_loop_products
    rw [show ingest_product p g = .ok (ingest_product_tx p pid g) by
      unfold ingest_product; rw [hpid]]
    simp [ih (ingest_product_tx p pid g) (fun x hx => h1 x (List.mem_cons_of_mem _ hx)),
      List.replicate_succ]

theorem famRank_le_four (f : Family) : famRank f ≤ 4 := by
  cases f <;> simp [famRank]

theorem pairwise_const {l : List Family} {f : Family} (h : ∀ x ∈ l, x = f) :
    l.Pairwise (fun a b => famRank a ≤ famRank b) := by
  induction l with
  | nil => exact List.Pairwise.nil
  | cons x xs ih =>
    refine List.Pairwise.cons ?_ (ih (fun y hy => h y (List.mem_cons_of_mem _ hy)))
    intro y hy
    rw [h x (List.mem_cons_self _ _), h y (List.mem_cons_of_mem _ hy)]

/-- Concatenation of the five per-family trace blocks is ordered by family
rank. -/
theorem pairwise_blocks {l1 l2 l3 l4 l5 : List Family}
    (h1 : ∀ x ∈ l1, x = Family.product) (h2 : ∀ x ∈ l2, x = Family.variant)
    (h3 : ∀ x ∈ l3, x = Family.order) (h4 : ∀ x ∈ l4, x = Family.inventory)
    (h5 : ∀ x ∈ l5, x = Family.customer) :
    (l1 ++ l2 ++ l3 ++ l4 ++ l5).Pairwise (fun a b => famRank a ≤ famRank b) := by
  have r12 : (l1 ++ l2).Pairwise (fun a b => famRank a ≤ famRank b) := by
    rw [List.pairwise_append]
    refine ⟨pairwise_const h1, pairwise_const h2, ?_⟩
    intro a ha b hb
    rw [h1 a ha, h2 b hb]; decide
  have m12 : ∀ a ∈ l1 ++ l2, famRank a ≤ 1 := by
    intro a ha
    rcases List.mem_append.mp ha with ha | ha
    · rw [h1 a ha]; decide
    · rw [h2 a ha]; decide
  have r123 : (l1 ++ l2 ++ l3).Pairwise (fun a b => famRank a ≤ famRank b) := by
    rw [List.pairwise_append]
    refine ⟨r12, pairwise_const h3, ?_⟩
    intro a ha b hb
    rw [h3 b hb]
    exact Nat.le_trans (m12 a ha) (by decide)
  have m123 : ∀ a ∈ l1 ++ l2 ++ l3, famRank a ≤ 2 := by
    intro a ha
    rcases List.mem_append.mp ha with ha | ha
    · exact Nat.le_trans (m12 a ha) (by decide)
    · rw [h3 a ha]; decide
  have r1234 : (l1 ++ l2 ++ l3 ++ l4).Pairwise (fun a b => famRank a ≤ famRank b) := by
    rw [List.pairwise_append]
    refine ⟨r123, pairwise_const h4, ?_⟩
    intro a ha b hb
    rw [h4 b hb]
    exact Nat.le_trans (m123 a ha) (by decide)
  rw [List.pairwise_append]
  refine ⟨r1234, pairwise_const h5, ?_⟩
  intro a ha b hb
  rw [h5 b hb]
  exact famRank_le_four a

deriving instance DecidableEq for Except

/-! ## Observation helpers -/

/-- Did the entry point finish without an uncaught error? -/
def exceptOk : Except IngestError Graph → Bool
  | .ok _ => true
  | .error _ => false

/-- Modelled from the spec's accounting requirement: the number of record
outcomes the entry point reports — one per successful write in the trace,
plus one for the single uncaught error (the only failure the caller can
observe), since the code builds no per-family report. -/
def outcomesAccounted (r : Except IngestError Graph × List Family) : Nat :=
  r.2.length + (match r.1 with | .ok _ => 0 | .error _ => 1)

/-! ## Concrete fixtures -/

/-- The spec's round-trip scenario product: product_id P1 with one nested
category C1 (other collections empty, remaining required fields filler). -/
def prodP1 : ProductRec :=
  { product_id := some "P1", sku := "SKU1", name := "Shoe", short_description := "",
    description := "", list_price := "{}", aggregate_stock := "{}",
    physical_attributes := "{}", status := "active", deleted := false,
    created_at := "2024", marketing := "{}", tags := [], media := "[]",
    compliances := "[]", handling_instructions := "[]", external_identifiers := "[]",
    categories := [⟨"C1", "Shoes", "shoes"⟩], collections := [], partners := [],
    brand := ⟨"B1", "BrandX"⟩ }

/-- The same scenario for the `app.py` ingestor. -/
def appProdP1 : AppProductRec :=
  { product_id := "P1", sku := "SKU1", name := "Shoe", short_description := "",
    description := "", list_price := "{}", aggregate_stock := "{}",
    physical_attributes := "{}", status := "active", deleted := false,
    created_at := "2024", categories := [⟨"C1", "Shoes", "shoes"⟩],
    collections := [], partners := [], variants := [], media := [],
    brand := ⟨"B1", "BrandX"⟩, marketing := "{}", tags := [] }

/-- The round-trip scenario graph: the same product ingested twice into an
empty database by the `neo4j_utils` ingestor. -/
def roundTripTwice : Graph :=
  ingest_product_tx prodP1 "P1" (ingest_product_tx prodP1 "P1" emptyGraph)

/-- The round-trip scenario graph for the `app.py` ingestor. -/
def appRoundTripTwice : Graph :=
  ingest_product_transaction appProdP1 (ingest_product_transaction appProdP1 emptyGraph)

/-- A minimal valid product record with the given identity key. -/
def mkProd (i : String) : ProductRec :=
  { product_id := some i, sku := "", name := "", short_description := "",
    description := "", list_price := "{}", aggregate_stock := "{}",
    physical_attributes := "{}", status := "", deleted := false,
    created_at := "", marketing := "{}", tags := [], media := "[]",
    compliances := "[]", handling_instructions := "[]", external_identifiers := "[]",
    categories := [], collections := [], partners := [], brand := ⟨"B", "B"⟩ }

/-- A product record with no `product_id` key. -/
def badProd : ProductRec :=
  { mkProd "ignored" with product_id := none }

def tenGood1 : List ProductRec := [mkProd "1", mkProd "2", mkProd "3", mkProd "4"]

def tenGood2 : List ProductRec :=
  [mkProd "6", mkProd "7", mkProd "8", mkProd "9", mkProd "10"]

/-- The spec's partial-failure scenario: ten product records, record #5
missing its identity key. -/
def tenBatch : List ProductRec := tenGood1 ++ badProd :: tenGood2

/-- A variant whose `product_id` names a Product not present. -/
def cexVariant : VariantRec :=
  { variant_id := "V1", sku := "", name := "", status := "", deleted := false,
    variation_type := "", created_at := "", updated_at := "", list_price := "{}",
    variations := "{}", physical_attributes := "{}", media := "[]",
    inventory_summary := "[]", sales_channels := "[]",
    external_identifiers := "[]", product_id := "P9" }

/-- A graph holding just the Product node P9. -/
def gWithP9 : Graph := emptyGraph.mergeNode .Product "P9" []

/-- The spec's order-line scenario, but with no shipments. -/
def cexOrder : OrderRec :=
  { order_id := "O1", order_number := "N1", status := "", currency := "USD",
    notes := "", created_at := "", updated_at := "", order_created_date := "",
    totals := "{}", payments := "[]", applied_promotions := "[]",
    external_references := "[]", customer_id := "CU1", sales_channel := none,
    order_items := [⟨"V1", .int 2, .dec 4000⟩], shipments := [] }

/-- The spec's order-line scenario with one shipment carrying one item. -/
def wOrder : OrderRec :=
  { cexOrder with
    shipments := [⟨"S1", "", "", "", "", "", "{}", [⟨"V9", .int 1⟩]⟩] }

/-- The order item of the order-line scenario: variant V1, quantity 2,
line_item_total 40.0. -/
def wItem : OrderItemRec := ⟨"V1", .int 2, .dec 4000⟩

/-- A product whose categories list is empty but whose collections list is
not. -/
def cexProdC7 : ProductRec :=
  { mkProd "P7" with collections := [⟨"COL1", "Summer", "summer"⟩] }

/-- Products for the C7 witness: one category, one collection, one partner. -/
def wProd7 : ProductRec :=
  { mkProd "P1" with
    categories := [⟨"C1", "Shoes", "shoes"⟩],
    collections := [⟨"COL1", "Summer", "summer"⟩],
    partners := [⟨"PA1", "Acme", "supplier"⟩] }

def wAppProd7 : AppProductRec :=
  { appProdP1 with
    collections := [⟨"COL1", "Summer", "summer"⟩],
    partners := [⟨"PA1", "Acme", "supplier"⟩] }

/-- An inventory record for a variant that has no node. -/
def invI1 : InventoryRec :=
  { inventory_id := "I1", variant_id := "VX", created_at := "", updated_at := "",
    quantity := ⟨.int 5, .int 4, .int 1⟩ }

/-- An order placed by customer CU1. -/
def orderCU1 : OrderRec := { cexOrder with customer_id := "CU1" }

/-- Address used for the C9 witness: the record carries state CA, which the
code never copies. -/
def wAddr : AddressRec :=
  ⟨"A1", "home", "Jo", "555", "1 Main St", "Springfield", "CA", "01101", "US", true⟩

/-- The full customer record for CU1, with one address. -/
def custCU1 : CustomerRec :=
  { customer_id := "CU1", email := "jo@example.com", first_name := "Jo",
    last_name := "Doe", phone := "555", customer_segment := "vip",
    marketing_consent := .bool true, notes := "", status := "active",
    deleted := false, created_at := "2024", updated_at := "2024",
    personalization_details := "{}", addresses := [wAddr],
    payment_methods := [], wishlist := [] }

/-! ## Claims -/

/-- C2: the orchestrator processes the five record families in the fixed
order Product, Variant, Order, Inventory, Customer — in the trace of executed
record writes of `ingest_data`, family ranks are monotone: every product
write precedes every variant write, every variant every order, every order
every inventory, and every inventory every customer write, for any input
collections. -/
theorem claim_C2 (g : Graph) (ps : List ProductRec) (vs : List VariantRec)
    (os : List OrderRec) (cs : List CustomerRec) (invs : List InventoryRec) :
    ((ingest_data g ps vs os cs invs).2).Pairwise (fun a b => famRank a ≤ famRank b) := by
  unfold ingest_data
  rcases hres : ingest_loop_products g ps with ⟨res, tr⟩
  have htr : ∀ x ∈ tr, x = Family.product := by
    intro x hx
    apply ingest_loop_products_mem g ps
    rw [hres]
    exact hx
  cases res with
  | error e =>
    simp only
    exact pairwise_const htr
  | ok g1 =>
    simp only [ingest_loop_trace]
    refine pairwise_blocks htr ?_ ?_ ?_ ?_ <;>
      (intro x hx; exact List.eq_of_mem_replicate hx)

/-- C3 (amended): a product record missing its identity key raises an
uncaught KeyError that aborts the whole batch: every record before it is
ingested (one trace event each), the error becomes the batch result, and no
later record of any family is processed. -/
theorem claim_C3 (g : Graph) (ps1 ps2 : List ProductRec) (bad : ProductRec)
    (vs : List VariantRec) (os : List OrderRec) (cs : List CustomerRec)
    (invs : List InventoryRec)
    (h1 : ∀ p ∈ ps1, (p.product_id).isSome = true)
    (h2 : bad.product_id = none) :
    (ingest_data g (ps1 ++ bad :: ps2) vs os cs invs).1
      = .error (.missingKey "product_id") ∧
    (ingest_data g (ps1 ++ bad :: ps2) vs os cs invs).2
      = List.replicate ps1.length Family.product := by
  unfold ingest_data
  rw [ingest_loop_products_bad g ps1 bad ps2 h1 h2]
  exact ⟨rfl, rfl⟩

/-- C3, the claim as stated, is false: for the ten-record batch whose fifth
record lacks `product_id`, ingestion does not yield 9 successes and continue;
it performs 4 successful writes and aborts the whole batch with the uncaught
error. -/
theorem claim_C3_counterexample :
    (ingest_data emptyGraph tenBatch [] [] [] []).1
      = .error (.missingKey "product_id") ∧
    (ingest_data emptyGraph tenBatch [] [] [] []).2.length = 4 ∧
    ¬ (ingest_data emptyGraph tenBatch [] [] [] []).2.length = 9 := by decide

theorem claim_C3_witness :
    (∀ p ∈ tenGood1, (p.product_id).isSome = true) ∧
    (badProd.product_id = none) ∧
    ((ingest_data emptyGraph (tenGood1 ++ badProd :: tenGood2) [] [] [] []).1
        = .error (.missingKey "product_id") ∧
     (ingest_data emptyGraph (tenGood1 ++ badProd :: tenGood2) [] [] [] []).2
        = List.replicate tenGood1.length Family.product) :=
  ⟨by decide, by decide,
   claim_C3 emptyGraph tenGood1 tenGood2 badProd [] [] [] [] (by decide) (by decide)⟩

/-- C6 (amended): the entry point returns no IngestionReport — the Python
function returns None; its observable outcome is the final graph (or the
first uncaught error) and the per-record write trace.  When every product
record carries its identity key, the batch completes and each record of every
family is accounted for exactly once in the trace. -/
theorem claim_C6 (g : Graph) (ps : List ProductRec) (vs : List VariantRec)
    (os : List OrderRec) (cs : List CustomerRec) (invs : List InventoryRec)
    (h : ∀ p ∈ ps, (p.product_id).isSome = true) :
    exceptOk (ingest_data g ps vs os cs invs).1 = true ∧
    (ingest_data g ps vs os cs invs).2.length
      = ps.length + vs.length + os.length + invs.length + cs.length := by
  obtain ⟨g2, hg2⟩ := ingest_loop_products_ok g ps h
  unfold ingest_data
  rw [hg2]
  refine ⟨by simp [ingest_loop_trace, exceptOk], ?_⟩
  simp [ingest_loop_trace, exceptOk]
  omega

/-- C6, the claim as stated, is false: there is no report accounting every
record's outcome exactly once — for the ten-record batch with one bad record,
only 5 outcomes are observable (4 successful writes plus the single uncaught
error), not 10. -/
theorem claim_C6_counterexample :
    outcomesAccounted (ingest_data emptyGraph tenBatch [] [] [] []) = 5 ∧
    ¬ outcomesAccounted (ingest_data emptyGraph tenBatch [] [] [] []) = 10 := by
  decide

theorem claim_C6_witness :
    (∀ p ∈ tenGood1, (p.product_id).isSome = true) ∧
    (exceptOk (ingest_data emptyGraph tenGood1 [] [] [] []).1 = true ∧
     (ingest_data emptyGraph tenGood1 [] [] [] []).2.length = 4 + 0 + 0 + 0 + 0) :=
  ⟨by decide, claim_C6 emptyGraph tenGood1 [] [] [] [] (by decide)⟩

/-- C10: ingesting an Inventory record whose variant_id matches no Variant
node is a complete silent no-op — the graph is unchanged, the batch result
is ok, and the record still produces a normal (non-error) trace event. -/
theorem claim_C10 (g : Graph) (iv : InventoryRec)
    (h : g.hasNode .Variant iv.variant_id = false) :
    ingest_inventory iv g = g ∧
    (ingest_data g [] [] [] [] [iv]).1 = .ok g ∧
    (ingest_data g [] [] [] [] [iv]).2 = [Family.inventory] := by
  have hni : ingest_inventory iv g = g := by
    unfold ingest_inventory
    simp [h]
  refine ⟨hni, ?_, ?_⟩ <;>
    simp [ingest_data, ingest_loop_products, ingest_loop, hni]

theorem claim_C10_witness :
    (emptyGraph.hasNode .Variant invI1.variant_id = false) ∧
    (ingest_inventory invI1 emptyGraph = emptyGraph ∧
     (ingest_data emptyGraph [] [] [] [] [invI1]).1 = .ok emptyGraph ∧
     (ingest_data emptyGraph [] [] [] [] [invI1]).2 = [Family.inventory]) :=
  ⟨by decide, claim_C10 emptyGraph invI1 (by decide)⟩

/-- C4 (amended): ingesting a Variant whose product_id names a Product with
no node does not fail — the MATCH yields zero rows, so the query ends
silently: the Variant node is merged, no HAS edge is created, and the batch
treats the record as a success.  When the Product node exists, the same
ingestion creates the parent HAS edge. -/
theorem claim_C4 (g : Graph) (v : VariantRec) :
    (g.hasNode .Product v.product_id = false →
      (ingest_variant v g).hasNode .Variant v.variant_id = true ∧
      (ingest_variant v g).edges = g.edges ∧
      (ingest_data g [] [v] [] [] []).1 = .ok (ingest_variant v g)) ∧
    (g.hasNode .Product v.product_id = true →
      (ingest_variant v g).hasEdge
        ⟨.Product, v.product_id, .HAS, .Variant, v.variant_id⟩ = true ∧
      (ingest_variant v g).hasNode .Variant v.variant_id = true) := by
  constructor
  · intro h
    have hfn : g.findNode .Product v.product_id = none := by
      unfold Graph.hasNode at h
      exact Option.not_isSome_iff_eq_none.mp (by simp [h])
    have hg1 : (g.mergeNode .Variant v.variant_id (variantNodeProps v)).findNode
        .Product v.product_id = none :=
      findNode_none_applyOp_node hfn (fun hcon => Label.noConfusion hcon.1) _
    have hcond : (g.mergeNode .Variant v.variant_id (variantNodeProps v)).hasNode
        .Product v.product_id = false := by
      unfold Graph.hasNode
      rw [hg1]
      rfl
    have hiv : ingest_variant v g
        = g.mergeNode .Variant v.variant_id (variantNodeProps v) := by
      unfold ingest_variant
      simp [hcond]
    refine ⟨?_, ?_, ?_⟩
    · rw [hiv]; exact hasNode_mergeNode_self g .Variant v.variant_id _
    · rw [hiv]
      unfold Graph.mergeNode
      split
      · rfl
      · rfl
    · simp [ingest_data, ingest_loop_products, ingest_loop]
  · intro h
    have hcond : (g.mergeNode .Variant v.variant_id (variantNodeProps v)).hasNode
        .Product v.product_id = true :=
      hasNode_applyOp h (.node .Variant v.variant_id (variantNodeProps v))
    have hiv : ingest_variant v g
        = (g.mergeNode .Variant v.variant_id (variantNodeProps v)).mergeEdge
            ⟨.Product, v.product_id, .HAS, .Variant, v.variant_id⟩ [] := by
      unfold ingest_variant
      simp [hcond]
    constructor
    · rw [hiv]; exact hasEdge_mergeEdge_self _ _ _
    · rw [hiv]
      have hv : (g.mergeNode .Variant v.variant_id (variantNodeProps v)).hasNode
          .Variant v.variant_id = true := hasNode_mergeNode_self g _ _ _
      exact hasNode_applyOp hv (.edge ⟨.Product, v.product_id, .HAS, .Variant, v.variant_id⟩ [])

/-- C4, the claim as stated, is false: on an empty database, ingesting the
variant V1 that references missing Product P9 raises no DependencyMissingError
— it succeeds, creates the Variant node, and creates no edge at all. -/
theorem claim_C4_counterexample :
    (ingest_variant cexVariant emptyGraph).edges = [] ∧
    (ingest_variant cexVariant emptyGraph).hasNode .Variant "V1" = true ∧
    (ingest_data emptyGraph [] [cexVariant] [] [] []).1
      = .ok (ingest_variant cexVariant emptyGraph) := by decide

theorem claim_C4_witness :
    (emptyGraph.hasNode .Product "P9" = false ∧
     (ingest_variant cexVariant emptyGraph).hasNode .Variant "V1" = true) ∧
    (gWithP9.hasNode .Product "P9" = true ∧
     (ingest_variant cexVariant gWithP9).hasEdge
       ⟨.Product, "P9", .HAS, .Variant, "V1"⟩ = true) :=
  ⟨⟨by decide, ((claim_C4 emptyGraph cexVariant).1 (by decide)).1⟩,
   ⟨by decide, ((claim_C4 gWithP9 cexVariant).2 (by decide)).1⟩⟩

/-- C1: ingesting the same product twice is idempotent.  For the spec's
round-trip scenario (product P1 with one category C1, ingested twice into an
empty database, under both the `neo4j_utils` and the `app.py` ingestor) the
graph holds exactly one Product node P1, one Category node C1 and one
BELONGS_TO edge between them.  In general, replaying a product ingestion is a
no-op, a node merge for an existing (label, identity key) returns the graph
unchanged (it targets the existing node), and every merge operation preserves
the at-most-one-node-per-key / at-most-one-edge-per-identity invariant. -/
theorem claim_C1 :
    (roundTripTwice.countNodes .Product "P1" = 1 ∧
     roundTripTwice.countNodes .Category "C1" = 1 ∧
     roundTripTwice.countEdges ⟨.Product, "P1", .BELONGS_TO, .Category, "C1"⟩ = 1) ∧
    (appRoundTripTwice.countNodes .Product "P1" = 1 ∧
     appRoundTripTwice.countNodes .Category "C1" = 1 ∧
     appRoundTripTwice.countEdges ⟨.Product, "P1", .BELONGS_TO, .Category, "C1"⟩ = 1) ∧
    (∀ (p : ProductRec) (pid : String) (g : Graph),
       ingest_product_tx p pid (ingest_product_tx p pid g) = ingest_product_tx p pid g) ∧
    (∀ (g : Graph) (l : Label) (k : String) (ps : List (String × Val)),
       g.hasNode l k = true → g.mergeNode l k ps = g) ∧
    (∀ (g : Graph) (op : MergeOp), g.Wf → (applyOp g op).Wf) := by
  refine ⟨⟨by decide, by decide, by decide⟩, ⟨by decide, by decide, by decide⟩,
    ?_, ?_, ?_⟩
  · intro p pid g
    exact applyPlan_idem (productPlan_plain p pid) g
  · intro g l k ps h
    exact mergeNode_of_hasNode ps h
  · intro g op h
    exact Wf_applyOp h op

theorem claim_C1_witness :
    (gWithP9.hasNode .Product "P9" = true ∧ gWithP9.mergeNode .Product "P9" [] = gWithP9) ∧
    Graph.Wf (applyOp emptyGraph (.node .Product "P9" [])) :=
  ⟨⟨by decide, claim_C1.2.2.2.1 gWithP9 .Product "P9" [] (by decide)⟩,
   claim_C1.2.2.2.2 emptyGraph (.node .Product "P9" []) Wf_empty⟩

/-- Splitting `_ingest_order` when the order-items clause runs (some shipment
has items) and there is exactly one order item. -/
theorem ingest_order_items_single (o : OrderRec) (it : OrderItemRec)
    (hship : ¬ ∀ s ∈ o.shipments, s.items = [])
    (hit : o.order_items = [it]) (g : Graph) :
    ingest_order o g =
      ((applyPlan g (orderFrontPlan o)).mergeNode .Variant it.variant_id
        []).mergeEdgeRefresh
        ⟨.Order, o.order_id, .CONTAINS, .Variant, it.variant_id⟩
        [("quantity", it.quantity), ("line_item_total", it.line_item_total)] := by
  unfold ingest_order orderPlan
  rw [applyPlan_append]
  unfold orderItemsPlan
  rw [if_neg hship, hit]
  rfl

/-- C5 (amended): for an order whose `order_items` is the single entry `it`,
provided at least one shipment carries a nonempty items list (otherwise the
order-items clause runs on zero rows), ingestion merges a placeholder Variant
node for `it.variant_id` and exactly one CONTAINS edge from the Order to that
Variant carrying the item's quantity and line_item_total, and any
re-ingestion overwrites the edge properties (ON CREATE and ON MATCH). -/
theorem claim_C5 (g : Graph) (o : OrderRec) (it : OrderItemRec)
    (hWf : g.Wf) (hship : ¬ ∀ s ∈ o.shipments, s.items = [])
    (hit : o.order_items = [it]) :
    (ingest_order o g).hasNode .Variant it.variant_id = true ∧
    (ingest_order o g).countEdges
      ⟨.Order, o.order_id, .CONTAINS, .Variant, it.variant_id⟩ = 1 ∧
    (ingest_order o g).findEdge
      ⟨.Order, o.order_id, .CONTAINS, .Variant, it.variant_id⟩
      = some ⟨⟨.Order, o.order_id, .CONTAINS, .Variant, it.variant_id⟩,
          [("quantity", it.quantity), ("line_item_total", it.line_item_total)]⟩ ∧
    (∀ it2 : OrderItemRec,
      (ingest_order { o with order_items := [it2] } (ingest_order o g)).findEdge
        ⟨.Order, o.order_id, .CONTAINS, .Variant, it2.variant_id⟩
      = some ⟨⟨.Order, o.order_id, .CONTAINS, .Variant, it2.variant_id⟩,
          [("quantity", it2.quantity), ("line_item_total", it2.line_item_total)]⟩) := by
  have hsplit := ingest_order_items_single o it hship hit g
  have hfe : (ingest_order o g).findEdge
      ⟨.Order, o.order_id, .CONTAINS, .Variant, it.variant_id⟩
      = some ⟨⟨.Order, o.order_id, .CONTAINS, .Variant, it.variant_id⟩,
          [("quantity", it.quantity), ("line_item_total", it.line_item_total)]⟩ := by
    rw [hsplit]
    exact findEdge_mergeEdgeRefresh_self _ _ _
  refine ⟨?_, ?_, hfe, ?_⟩
  · rw [hsplit]
    show (Graph.mergeEdgeRefresh _ _ _).hasNode .Variant it.variant_id = true
    unfold Graph.hasNode Graph.findNode
    rw [nodes_mergeEdgeRefresh]
    exact hasNode_mergeNode_self _ _ _ _
  · have hWfO : (ingest_order o g).Wf := Wf_applyPlan hWf (orderPlan o)
    have hhe : (ingest_order o g).hasEdge
        ⟨.Order, o.order_id, .CONTAINS, .Variant, it.variant_id⟩ = true := by
      unfold Graph.hasEdge
      rw [hfe]
      rfl
    exact countEdges_eq_one hWfO hhe
  · intro it2
    have hsplit2 := ingest_order_items_single { o with order_items := [it2] } it2
      hship rfl (ingest_order o g)
    rw [hsplit2]
    exact findEdge_mergeEdgeRefresh_self _ _ _

/-- C5, the claim as stated, is false: for the order-line scenario record
with no shipments, the `$order_items` UNWIND runs on zero rows, so no
CONTAINS edge from the Order is created and no Variant placeholder appears at
all. -/
theorem claim_C5_counterexample :
    (ingest_order cexOrder emptyGraph).countEdges
      ⟨.Order, "O1", .CONTAINS, .Variant, "V1"⟩ = 0 ∧
    (ingest_order cexOrder emptyGraph).hasNode .Variant "V1" = false := by decide

theorem claim_C5_witness :
    (Graph.Wf emptyGraph ∧ (¬ ∀ s ∈ wOrder.shipments, s.items = []) ∧
     wOrder.order_items = [wItem]) ∧
    ((ingest_order wOrder emptyGraph).hasNode .Variant "V1" = true ∧
     (ingest_order wOrder emptyGraph).countEdges
       ⟨.Order, "O1", .CONTAINS, .Variant, "V1"⟩ = 1 ∧
     (ingest_order wOrder emptyGraph).findEdge
       ⟨.Order, "O1", .CONTAINS, .Variant, "V1"⟩
       = some ⟨⟨.Order, "O1", .CONTAINS, .Variant, "V1"⟩,
           [("quantity", .int 2), ("line_item_total", .dec 4000)]⟩) :=
  ⟨⟨Wf_empty, by decide, rfl⟩,
   ⟨(claim_C5 emptyGraph wOrder wItem Wf_empty (by decide) rfl).1,
    (claim_C5 emptyGraph wOrder wItem Wf_empty (by decide) rfl).2.1,
    (claim_C5 emptyGraph wOrder wItem Wf_empty (by decide) rfl).2.2.1⟩⟩

/-- C7 (amended): fan-out completeness.  For the `neo4j_utils` single-query
ingestor, every listed category yields exactly one Category node and one
BELONGS_TO edge; the same holds for collections (PART_OF) provided the
categories list is nonempty, and for partners (SUPPLIED_BY) provided both the
categories and collections lists are nonempty — an empty earlier UNWIND
leaves zero rows for the later clauses.  Re-ingesting the same record never
duplicates an edge.  The `app.py` per-statement ingestor satisfies the
fan-out counts unconditionally, with no duplicate edges on re-ingestion. -/
theorem claim_C7 (g : Graph) (p : ProductRec) (pid : String)
    (ap : AppProductRec) (hWf : g.Wf) :
    (∀ crec ∈ p.categories,
       (ingest_product_tx p pid g).countNodes .Category crec.category_id = 1 ∧
       (ingest_product_tx p pid g).countEdges
         ⟨.Product, pid, .BELONGS_TO, .Category, crec.category_id⟩ = 1) ∧
    (p.categories ≠ [] → ∀ col ∈ p.collections,
       (ingest_product_tx p pid g).countNodes .Collection col.collection_id = 1 ∧
       (ingest_product_tx p pid g).countEdges
         ⟨.Product, pid, .PART_OF, .Collection, col.collection_id⟩ = 1) ∧
    (p.categories ≠ [] → p.collections ≠ [] → ∀ pa ∈ p.partners,
       (ingest_product_tx p pid g).countNodes .Partner pa.partner_id = 1 ∧
       (ingest_product_tx p pid g).countEdges
         ⟨.Product, pid, .SUPPLIED_BY, .Partner, pa.partner_id⟩ = 1) ∧
    (∀ q, (ingest_product_tx p pid (ingest_product_tx p pid g)).countEdges q
        = (ingest_product_tx p pid g).countEdges q) ∧
    ((∀ crec ∈ ap.categories,
        (ingest_product_transaction ap g).countNodes .Category crec.category_id = 1 ∧
        (ingest_product_transaction ap g).countEdges
          ⟨.Product, ap.product_id, .BELONGS_TO, .Category, crec.category_id⟩ = 1) ∧
     (∀ col ∈ ap.collections,
        (ingest_product_transaction ap g).countNodes .Collection col.collection_id = 1 ∧
        (ingest_product_transaction ap g).countEdges
          ⟨.Product, ap.product_id, .PART_OF, .Collection, col.collection_id⟩ = 1) ∧
     (∀ pa ∈ ap.partners,
        (ingest_product_transaction ap g).countNodes .Partner pa.partner_id = 1 ∧
        (ingest_product_transaction ap g).countEdges
          ⟨.Product, ap.product_id, .SUPPLIED_BY, .Partner, pa.partner_id⟩ = 1) ∧
     (∀ q, (ingest_product_transaction ap (ingest_product_transaction ap g)).countEdges q
         = (ingest_product_transaction ap g).countEdges q)) := by
  have hWf1 : (ingest_product_tx p pid g).Wf := Wf_applyPlan hWf (productPlan p pid)
  have hWfA : (ingest_product_transaction ap g).Wf := Wf_applyPlan hWf (appProductPlan ap)
  refine ⟨?_, ?_, ?_, ?_, ?_, ?_, ?_, ?_⟩
  · intro crec hcrec
    have hn : MergeOp.node .Category (catItem crec).1 (catItem crec).2.1
        ∈ productPlan p pid := by
      unfold productPlan
      exact List.mem_cons_of_mem _ (List.mem_append.mpr
        (Or.inl (mem_fanOps_node (List.mem_map_of_mem _ hcrec) _ _ _)))
    have he : MergeOp.edge ⟨.Product, pid, .BELONGS_TO, .Category, (catItem crec).1⟩
        (catItem crec).2.2 ∈ productPlan p pid := by
      unfold productPlan
      exact List.mem_cons_of_mem _ (List.mem_append.mpr
        (Or.inl (mem_fanOps_edge (List.mem_map_of_mem _ hcrec) (.Product, pid) _ _)))
    exact ⟨countNodes_eq_one hWf1 (hasNode_applyPlan_of_mem hn),
      countEdges_eq_one hWf1 (hasEdge_applyPlan_of_mem he)⟩
  · intro h1 col hcol
    have hn : MergeOp.node .Collection (collItem col).1 (collItem col).2.1
        ∈ productPlan p pid := by
      unfold productPlan
      refine List.mem_cons_of_mem _ (List.mem_append.mpr (Or.inr ?_))
      rw [if_neg h1]
      exact List.mem_append.mpr
        (Or.inl (mem_fanOps_node (List.mem_map_of_mem _ hcol) _ _ _))
    have he : MergeOp.edge ⟨.Product, pid, .PART_OF, .Collection, (collItem col).1⟩
        (collItem col).2.2 ∈ productPlan p pid := by
      unfold productPlan
      refine List.mem_cons_of_mem _ (List.mem_append.mpr (Or.inr ?_))
      rw [if_neg h1]
      exact List.mem_append.mpr
        (Or.inl (mem_fanOps_edge (List.mem_map_of_mem _ hcol) (.Product, pid) _ _))
    exact ⟨countNodes_eq_one hWf1 (hasNode_applyPlan_of_mem hn),
      countEdges_eq_one hWf1 (hasEdge_applyPlan_of_mem he)⟩
  · intro h1 h2 pa hpa
    have hn : MergeOp.node .Partner (partnerItem pa).1 (partnerItem pa).2.1
        ∈ productPlan p pid := by
      unfold productPlan
      refine List.mem_cons_of_mem _ (List.mem_append.mpr (Or.inr ?_))
      rw [if_neg h1]
      refine List.mem_append.mpr (Or.inr ?_)
      rw [if_neg h2]
      exact List.mem_append.mpr
        (Or.inl (mem_fanOps_node (List.mem_map_of_mem _ hpa) _ _ _))
    have he : MergeOp.edge ⟨.Product, pid, .SUPPLIED_BY, .Partner, (partnerItem pa).1⟩
        (partnerItem pa).2.2 ∈ productPlan p pid := by
      unfold productPlan
      refine List.mem_cons_of_mem _ (List.mem_append.mpr (Or.inr ?_))
      rw [if_neg h1]
      refine List.mem_append.mpr (Or.inr ?_)
      rw [if_neg h2]
      exact List.mem_append.mpr
        (Or.inl (mem_fanOps_edge (List.mem_map_of_mem _ hpa) (.Product, pid) _ _))
    exact ⟨countNodes_eq_one hWf1 (hasNode_applyPlan_of_mem hn),
      countEdges_eq_one hWf1 (hasEdge_applyPlan_of_mem he)⟩
  · intro q
    exact countEdges_replay g (productPlan p pid) q
  · intro crec hcrec
    have hn : MergeOp.node .Category (catItem crec).1 (catItem crec).2.1
        ∈ appProductPlan ap := by
      unfold appProductPlan
      exact List.mem_cons_of_mem _ (List.mem_append.mpr (Or.inl
        (List.mem_append.mpr (Or.inl (List.mem_append.mpr (Or.inl
          (List.mem_append.mpr (Or.inl (List.mem_append.mpr (Or.inl
            (mem_fanOps_node (List.mem_map_of_mem _ hcrec) _ _ _)))))))))))
    have he : MergeOp.edge
        ⟨.Product, ap.product_id, .BELONGS_TO, .Category, (catItem crec).1⟩
        (catItem crec).2.2 ∈ appProductPlan ap := by
      unfold appProductPlan
      exact List.mem_cons_of_mem _ (List.mem_append.mpr (Or.inl
        (List.mem_append.mpr (Or.inl (List.mem_append.mpr (Or.inl
          (List.mem_append.mpr (Or.inl (List.mem_append.mpr (Or.inl
            (mem_fanOps_edge (List.mem_map_of_mem _ hcrec)
              (.Product, ap.product_id) _ _)))))))))))
    exact ⟨countNodes_eq_one hWfA (hasNode_applyPlan_of_mem hn),
      countEdges_eq_one hWfA (hasEdge_applyPlan_of_mem he)⟩
  · intro col hcol
    have hn : MergeOp.node .Collection (collItem col).1 (collItem col).2.1
        ∈ appProductPlan ap := by
      unfold appProductPlan
      exact List.mem_cons_of_mem _ (List.mem_append.mpr (Or.inl
        (List.mem_append.mpr (Or.inl (List.mem_append.mpr (Or.inl
          (List.mem_append.mpr (Or.inl (List.mem_append.mpr (Or.inr
            (mem_fanOps_node (List.mem_map_of_mem _ hcol) _ _ _)))))))))))
    have he : MergeOp.edge
        ⟨.Product, ap.product_id, .PART_OF, .Collection, (collItem col).1⟩
        (collItem col).2.2 ∈ appProductPlan ap := by
      unfold appProductPlan
      exact List.mem_cons_of_mem _ (List.mem_append.mpr (Or.inl
        (List.mem_append.mpr (Or.inl (List.mem_append.mpr (Or.inl
          (List.mem_append.mpr (Or.inl (List.mem_append.mpr (Or.inr
            (mem_fanOps_edge (List.mem_map_of_mem _ hcol)
              (.Product, ap.product_id) _ _)))))))))))
    exact ⟨countNodes_eq_one hWfA (hasNode_applyPlan_of_mem hn),
      countEdges_eq_one hWfA (hasEdge_applyPlan_of_mem he)⟩
  · intro pa hpa
    have hn : MergeOp.node .Partner (partnerItem pa).1 (partnerItem pa).2.1
        ∈ appProductPlan ap := by
      unfold appProductPlan
      exact List.mem_cons_of_mem _ (List.mem_append.mpr (Or.inl
        (List.mem_append.mpr (Or.inl (List.mem_append.mpr (Or.inl
          (List.mem_append.mpr (Or.inr
            (mem_fanOps_node (List.mem_map_of_mem _ hpa) _ _ _)))))))))
    have he : MergeOp.edge
        ⟨.Product, ap.product_id, .SUPPLIED_BY, .Partner, (partnerItem pa).1⟩
        (partnerItem pa).2.2 ∈ appProductPlan ap := by
      unfold appProductPlan
      exact List.mem_cons_of_mem _ (List.mem_append.mpr (Or.inl
        (List.mem_append.mpr (Or.inl (List.mem_append.mpr (Or.inl
          (List.mem_append.mpr (Or.inr
            (mem_fanOps_edge (List.mem_map_of_mem _ hpa)
              (.Product, ap.product_id) _ _)))))))))
    exact ⟨countNodes_eq_one hWfA (hasNode_applyPlan_of_mem hn),
      countEdges_eq_one hWfA (hasEdge_applyPlan_of_mem he)⟩
  · intro q
    exact countEdges_replay g (appProductPlan ap) q

/-- C7, the claim as stated, is false: a product whose categories list is
empty but whose collections list holds COL1 creates no Collection node at
all, because the empty `UNWIND $categories` leaves zero rows for the
collection clause. -/
theorem claim_C7_counterexample :
    (ingest_product_tx cexProdC7 "P7" emptyGraph).countNodes .Collection "COL1" = 0 ∧
    ¬ (ingest_product_tx cexProdC7 "P7" emptyGraph).countNodes .Collection "COL1" = 1 := by
  decide

theorem claim_C7_witness :
    Graph.Wf emptyGraph ∧
    ((ingest_product_tx wProd7 "P1" emptyGraph).countNodes .Category "C1" = 1 ∧
     (ingest_product_tx wProd7 "P1" emptyGraph).countNodes .Collection "COL1" = 1 ∧
     (ingest_product_tx wProd7 "P1" emptyGraph).countNodes .Partner "PA1" = 1 ∧
     (ingest_product_transaction wAppProd7 emptyGraph).countNodes .Collection "COL1" = 1) :=
  ⟨Wf_empty,
   ((claim_C7 emptyGraph wProd7 "P1" wAppProd7 Wf_empty).1
      ⟨"C1", "Shoes", "shoes"⟩ (by decide)).1,
   ((claim_C7 emptyGraph wProd7 "P1" wAppProd7 Wf_empty).2.1 (by decide)
      ⟨"COL1", "Summer", "summer"⟩ (by decide)).1,
   ((claim_C7 emptyGraph wProd7 "P1" wAppProd7 Wf_empty).2.2.1 (by decide) (by decide)
      ⟨"PA1", "Acme", "supplier"⟩ (by decide)).1,
   ((claim_C7 emptyGraph wProd7 "P1" wAppProd7 Wf_empty).2.2.2.2.2.1
      ⟨"COL1", "Summer", "summer"⟩ (by decide)).1⟩

/-- Once a Customer node with key `X` exists, `_ingest_customer` leaves it
untouched (its node merge is ON CREATE only). -/
theorem ingest_customer_keeps_node {g : Graph} {X : String} {n : Node}
    (c : CustomerRec) (hc : c.customer_id = X)
    (h : g.findNode .Customer X = some n) :
    (ingest_customer c g).findNode .Customer X = some n := by
  subst hc
  have hhas : g.hasNode .Customer c.customer_id = true := by
    unfold Graph.hasNode
    rw [h]
    rfl
  show (applyPlan (applyOp g (MergeOp.node .Customer c.customer_id (customerNodeProps c)))
      (customerAddressesPlan c ++ customerTailPlan c)).findNode .Customer c.customer_id
      = some n
  rw [show applyOp g (MergeOp.node .Customer c.customer_id (customerNodeProps c)) = g
    from mergeNode_of_hasNode _ hhas]
  rw [applyPlan_append]
  exact findNode_some_applyPlan (fun op hop => customerTailPlan_setFree c op hop)
    (findNode_some_applyPlan (fun op hop => customerAddressesPlan_setFree c op hop) h)

/-- C8: when an Order naming customer X is ingested before the Customer
record for X (which the family order guarantees), `_ingest_order` creates the
Customer node as a bare placeholder holding only the key, and the later
`_ingest_customer` — whose property writes are ON CREATE only — leaves its
properties (email, first_name, ...) empty forever: the node still carries no
properties after any number of later customer ingestions for X. -/
theorem claim_C8 (g : Graph) (o : OrderRec) (c : CustomerRec) (X : String)
    (hg : g.findNode .Customer X = none)
    (ho : o.customer_id = X) (hc : c.customer_id = X) :
    (ingest_order o g).findNode .Customer X = some ⟨.Customer, X, []⟩ ∧
    (ingest_customer c (ingest_order o g)).findNode .Customer X
      = some ⟨.Customer, X, []⟩ ∧
    (∀ c2 : CustomerRec, c2.customer_id = X →
      (ingest_customer c2 (ingest_customer c (ingest_order o g))).findNode .Customer X
        = some ⟨.Customer, X, []⟩) := by
  subst ho
  have h1 : (g.mergeNode .Order o.order_id (orderNodeProps o)).findNode
      .Customer o.customer_id = none :=
    findNode_none_applyOp_node hg (fun hcon => Label.noConfusion hcon.1) _
  have h2 : ((g.mergeNode .Order o.order_id (orderNodeProps o)).mergeNode
      .Customer o.customer_id []).findNode .Customer o.customer_id
      = some ⟨.Customer, o.customer_id, []⟩ :=
    findNode_mergeNode_of_none [] h1
  have h3 : (((g.mergeNode .Order o.order_id (orderNodeProps o)).mergeNode
      .Customer o.customer_id []).mergeEdge
      ⟨.Customer, o.customer_id, .PLACED, .Order, o.order_id⟩ []).findNode
      .Customer o.customer_id = some ⟨.Customer, o.customer_id, []⟩ :=
    findNode_some_applyOp h2
      (MergeOp.edge ⟨.Customer, o.customer_id, .PLACED, .Order, o.order_id⟩ []) rfl
  have main1 : (ingest_order o g).findNode .Customer o.customer_id
      = some ⟨.Customer, o.customer_id, []⟩ := by
    show (applyPlan g (orderPlan o)).findNode .Customer o.customer_id = _
    unfold orderPlan orderFrontPlan
    rw [applyPlan_append, applyPlan_append, applyPlan_append]
    have hA : (applyPlan g
        [MergeOp.node .Order o.order_id (orderNodeProps o),
         MergeOp.node .Customer o.customer_id [],
         MergeOp.edge ⟨.Customer, o.customer_id, .PLACED, .Order, o.order_id⟩ []]).findNode
        .Customer o.customer_id = some ⟨.Customer, o.customer_id, []⟩ := by
      simp only [applyPlan]
      exact h3
    exact findNode_some_applyPlan (fun op hop => orderItemsPlan_setFree o op hop)
      (findNode_some_applyPlan (fun op hop => shipmentsPlan_setFree o op hop)
        (findNode_some_applyPlan (fun op hop => salesChannelPlan_setFree o op hop) hA))
  have main2 := ingest_customer_keeps_node c hc main1
  exact ⟨main1, main2, fun c2 hc2 => ingest_customer_keeps_node c2 hc2 main2⟩

theorem claim_C8_witness :
    (emptyGraph.findNode .Customer "CU1" = none ∧ orderCU1.customer_id = "CU1" ∧
     custCU1.customer_id = "CU1") ∧
    ((ingest_order orderCU1 emptyGraph).findNode .Customer "CU1"
       = some ⟨.Customer, "CU1", []⟩ ∧
     (ingest_customer custCU1 (ingest_order orderCU1 emptyGraph)).findNode .Customer "CU1"
       = some ⟨.Customer, "CU1", []⟩) :=
  ⟨⟨by decide, rfl, rfl⟩,
   ⟨(claim_C8 emptyGraph orderCU1 custCU1 "CU1" (by decide) rfl rfl).1,
    (claim_C8 emptyGraph orderCU1 custCU1 "CU1" (by decide) rfl rfl).2.1⟩⟩

/-- C9: for every address of a Customer record, the Address node created by
the HAS_ADDRESS fan-out never receives the record's `state` field — the ON
CREATE clause assigns the node's own absent `state` property to itself
(`a.state = a.state`), so the stored property set has no `state` binding —
while label, receiver_name, receiver_phone, street, city, zip_code and
country are copied from the record. -/
theorem claim_C9 (g : Graph) (c : CustomerRec) (k : String) (a : AddressRec)
    (hg : g.findNode .Address k = none)
    (ha : c.addresses.find? (fun x => decide (x.address_id = k)) = some a) :
    (ingest_customer c g).findNode .Address k
      = some ⟨.Address, k, addressNodeProps a⟩ ∧
    (addressNodeProps a).lookup "state" = none ∧
    (addressNodeProps a).lookup "street" = some (.str a.street) ∧
    (addressNodeProps a).lookup "city" = some (.str a.city) ∧
    (addressNodeProps a).lookup "zip_code" = some (.str a.zip_code) ∧
    (addressNodeProps a).lookup "country" = some (.str a.country) ∧
    (addressNodeProps a).lookup "label" = some (.str a.label) ∧
    (addressNodeProps a).lookup "receiver_name" = some (.str a.receiver_name) ∧
    (addressNodeProps a).lookup "receiver_phone" = some (.str a.receiver_phone) := by
  have him : (c.addresses.map addressItem).find? (fun x => decide (x.1 = k))
      = some (addressItem a) := by
    rw [List.find?_map]
    rw [show ((fun x : String × List (String × Val) × List (String × Val) =>
        decide (x.1 = k)) ∘ addressItem)
      = (fun x : AddressRec => decide (x.address_id = k)) from rfl]
    rw [ha]
    rfl
  have h0 : (applyOp g (MergeOp.node .Customer c.customer_id
      (customerNodeProps c))).findNode .Address k = none :=
    findNode_none_applyOp_node hg (fun hcon => Label.noConfusion hcon.1) _
  have h1 : (applyPlan (applyOp g (MergeOp.node .Customer c.customer_id
      (customerNodeProps c))) (customerAddressesPlan c)).findNode .Address k
      = some ⟨.Address, k, (addressItem a).2.1⟩ := by
    unfold customerAddressesPlan
    exact fanOps_findNode_first (.Customer, c.customer_id) .HAS_ADDRESS h0 him
  have main : (ingest_customer c g).findNode .Address k
      = some ⟨.Address, k, addressNodeProps a⟩ := by
    show (applyPlan (applyOp g (MergeOp.node .Customer c.customer_id
        (customerNodeProps c))) (customerAddressesPlan c ++ customerTailPlan c)).findNode
        .Address k = some ⟨.Address, k, addressNodeProps a⟩
    rw [applyPlan_append]
    exact findNode_some_applyPlan (fun op hop => customerTailPlan_setFree c op hop) h1
  exact ⟨main, rfl, rfl, rfl, rfl, rfl, rfl, rfl, rfl⟩

theorem claim_C9_witness :
    (emptyGraph.findNode .Address "A1" = none ∧
     custCU1.addresses.find? (fun x => decide (x.address_id = "A1")) = some wAddr ∧
     wAddr.state = "CA") ∧
    ((ingest_customer custCU1 emptyGraph).findNode .Address "A1"
       = some ⟨.Address, "A1", addressNodeProps wAddr⟩ ∧
     (addressNodeProps wAddr).lookup "state" = none ∧
     (addressNodeProps wAddr).lookup "street" = some (.str "1 Main St")) :=
  ⟨⟨by decide, by decide, rfl⟩,
   ⟨(claim_C9 emptyGraph custCU1 "A1" wAddr (by decide) (by decide)).1,
    (claim_C9 emptyGraph custCU1 "A1" wAddr (by decide) (by decide)).2.1,
    (claim_C9 emptyGraph custCU1 "A1" wAddr (by decide) (by decide)).2.2.1⟩⟩

end KG

